import Mathlib

/-!
Verification of the request-orchestration and caching layer of the
`data-from-anywhere-26` weather-map application, against its richest source
variant (`src/unnamed/part_004`, with `src/src/main.ts` as an earlier
variant).  JavaScript `Map`s and object literals are embedded as ordered
association lists with JavaScript insertion semantics (updating an existing
key keeps its position, a fresh key is appended); timestamps are integers in
milliseconds; asynchronous functions are split at their suspension points
into explicit start/settle phases, with the network modelled as an oracle
from URLs to outcomes.
-/

namespace DataFromAnywhere

/-- JavaScript `Map.set` / object-property assignment on an ordered
association list: update in place if the key exists, append otherwise. -/
def mapSet {β : Type} : List (String × β) → String → β → List (String × β)
  | [], k, v => [(k, v)]
  | (k1, v1) :: rest, k, v =>
      if k1 = k then (k, v) :: rest else (k1, v1) :: mapSet rest k v

/-- JavaScript `Map.get` / property lookup on an ordered association list. -/
def mapGet {β : Type} : List (String × β) → String → Option β
  | [], _ => none
  | (k1, v1) :: rest, k => if k1 = k then some v1 else mapGet rest k

/-- JavaScript `Map.delete` on an ordered association list. -/
def mapDelete {β : Type} (m : List (String × β)) (k : String) : List (String × β) :=
  m.filter (fun p => p.1 ≠ k)

/-- Source `Object.assign(result, source)`: assign every entry of `source` into
`result` in order, with JavaScript update-in-place / append semantics. -/
def jsAssign {β : Type} (m : List (String × β)) (source : List (String × β)) :
    List (String × β) :=
  source.foldl (fun acc kv => mapSet acc kv.1 kv.2) m

theorem mapGet_mapSet_self {β : Type} (m : List (String × β)) (k : String) (v : β) :
    mapGet (mapSet m k v) k = some v := by
  induction m with
  | nil => simp [mapSet, mapGet]
  | cons hd tl ih =>
      obtain ⟨k1, v1⟩ := hd
      by_cases h : k1 = k <;> simp [mapSet, mapGet, h, ih]

theorem mapGet_mapSet_other {β : Type} (m : List (String × β)) (k k2 : String) (v : β)
    (hne : k2 ≠ k) : mapGet (mapSet m k v) k2 = mapGet m k2 := by
  have hne2 : ¬k = k2 := fun h => hne h.symm
  induction m with
  | nil => simp [mapSet, mapGet, hne2]
  | cons hd tl ih =>
      obtain ⟨k1, v1⟩ := hd
      by_cases h : k1 = k
      · subst h
        simp [mapSet, mapGet, hne2]
      · by_cases h2 : k1 = k2 <;> simp [mapSet, mapGet, h, h2, ih, hne]

theorem mapGet_mapDelete_self {β : Type} (m : List (String × β)) (k : String) :
    mapGet (mapDelete m k) k = none := by
  induction m with
  | nil => simp [mapDelete, mapGet]
  | cons hd tl ih =>
      obtain ⟨k1, v1⟩ := hd
      by_cases h : k1 = k <;> simp_all [mapDelete, mapGet, h]

theorem mapGet_mapDelete_other {β : Type} (m : List (String × β)) (k k2 : String)
    (hne : k2 ≠ k) : mapGet (mapDelete m k) k2 = mapGet m k2 := by
  have hne2 : ¬k = k2 := fun h => hne h.symm
  induction m with
  | nil => simp [mapDelete, mapGet]
  | cons hd tl ih =>
      obtain ⟨k1, v1⟩ := hd
      by_cases h : k1 = k
      · subst h
        simp_all [mapDelete, mapGet, hne2]
      · by_cases h2 : k1 = k2 <;> simp_all [mapDelete, mapGet]

theorem jsAssign_append {β : Type} (m : List (String × β)) (a b : List (String × β)) :
    jsAssign m (a ++ b) = jsAssign (jsAssign m a) b := by
  simp [jsAssign, List.foldl_append]

/-! ## TTL cache (part_004 lines 24-36, 617-637, 1016-1028) -/

/-- Source `type CacheEntry<T> = { value: T; expiresAt: number }`. -/
structure CacheEntry (α : Type) where
  value : α
  expiresAt : Int
deriving Repr, DecidableEq

/-- A cache `Map<string, CacheEntry<T>>`. -/
def Cache (α : Type) : Type := List (String × CacheEntry α)

instance {α : Type} [DecidableEq α] : DecidableEq (Cache α) := by
  unfold Cache; infer_instance

/-- Cache time-to-live and request-timeout constants (milliseconds). -/
def failedRequestCacheTimeToLive : Int := 30 * 1000

def forecastCacheTimeToLive : Int := 5 * 60 * 1000

def iconCacheTimeToLive : Int := 30 * 60 * 1000

def observationsCacheTimeToLive : Int := 2 * 60 * 1000

def pointsStationsCacheTimeToLive : Int := 10 * 60 * 1000

def requestTimeout : Int := 8 * 1000

/-- Source `getCachedValue` (part_004 lines 619-637).  `now` is `Date.now()`.
Returns the looked-up value together with the possibly-shrunk cache, because
an expired entry is deleted on access. -/
def getCachedValue {α : Type} (now : Int) (cache : Cache α) (key : String) :
    Option α × Cache α :=
  match mapGet cache key with
  | none => (none, cache)
  | some entry =>
      if now ≥ entry.expiresAt then (none, mapDelete cache key)
      else (some entry.value, cache)

/-- Source `setCachedValue` (part_004 lines 1018-1028).  `now` is `Date.now()`. -/
def setCachedValue {α : Type} (now : Int) (cache : Cache α) (key : String)
    (value : α) (ttlMs : Int) : Cache α :=
  mapSet cache key { value := value, expiresAt := now + ttlMs }

/-- C3: after `set(key, value, T)` at time `t0`, `get(key)` returns the value
whenever the current time is strictly before `t0 + T` (leaving the cache
unchanged), and from `t0 + T` onward `get(key)` reports absent and deletes
the expired entry from the map. -/
theorem cache_ttl_boundary {α : Type} (cache : Cache α) (key : String) (value : α)
    (ttl t0 t : Int) :
    (t < t0 + ttl →
      getCachedValue t (setCachedValue t0 cache key value ttl) key =
        (some value, setCachedValue t0 cache key value ttl)) ∧
    (t ≥ t0 + ttl →
      (getCachedValue t (setCachedValue t0 cache key value ttl) key).1 = none ∧
      mapGet (getCachedValue t (setCachedValue t0 cache key value ttl) key).2 key =
        none) := by
  constructor
  · intro hlt
    simp [getCachedValue, setCachedValue, mapGet_mapSet_self]
    omega
  · intro hge
    simp [getCachedValue, setCachedValue, mapGet_mapSet_self]
    rw [if_pos (by omega)]
    simp [mapGet_mapDelete_self]

/-- Witness for `cache_ttl_boundary` at a concrete input. -/
theorem cache_ttl_boundary_witness :
    ((5 : Int) < 0 + 30000 ∧
      getCachedValue 5 (setCachedValue 0 ([] : Cache Nat) "k" 7 30000) "k" =
        (some 7, setCachedValue 0 ([] : Cache Nat) "k" 7 30000)) ∧
    ((30000 : Int) ≥ 0 + 30000 ∧
      (getCachedValue 30000 (setCachedValue 0 ([] : Cache Nat) "k" 7 30000) "k").1 =
        none) := by
  refine ⟨⟨by decide, ?_⟩, ⟨by decide, ?_⟩⟩
  · exact (cache_ttl_boundary ([] : Cache Nat) "k" 7 30000 0 5).1 (by decide)
  · exact ((cache_ttl_boundary ([] : Cache Nat) "k" 7 30000 0 30000).2 (by decide)).1

/-! ## JavaScript values and the flattening transform
(`processProperties`, part_004 lines 770-795 / main.ts lines 591-611) -/

/-- A JavaScript/JSON value as it occurs in the upstream responses.  `num`
carries a rational; the upstream payloads are parsed JSON, which has no NaN
or infinities.  `undef` is `undefined`. -/
inductive JsVal where
  | str (s : String)
  | num (q : ℚ)
  | boolean (b : Bool)
  | null
  | undef
  | obj (fields : List (String × JsVal))
  | arr (items : List JsVal)
deriving Repr

/-- JavaScript `String(value)` for the scalar values of the model; for the
claims at hand only the renderings of strings, `null`, `undefined` and
booleans matter, and a fixed decimal-free rendering is used for rationals. -/
def jsString : JsVal → String
  | .str s => s
  | .num q => toString q
  | .boolean b => if b then "true" else "false"
  | .null => "null"
  | .undef => "undefined"
  | .obj _ => "[object Object]"
  | .arr _ => ""

/-- Conversion `value == null ? "" : String(value)` — the conversion applied to a
scalar object-property value in `processProperties`. -/
def scalarOrEmpty (v : JsVal) : String :=
  match v with
  | .null => ""
  | .undef => ""
  | v => jsString v

/-- JavaScript truthiness. -/
def jsTruthy : JsVal → Bool
  | .str s => s ≠ ""
  | .num q => q ≠ 0
  | .boolean b => b
  | .null => false
  | .undef => false
  | .obj _ => true
  | .arr _ => true

/- `processProperties(object, prefix)` restricted to one entry list, with
the result object threaded through as an accumulator.  The source builds a
fresh `result` in each recursive call and copies it into the caller's
`result` with `Object.assign`; because `Object.assign` replays the fresh
object's entries in their insertion order, threading the caller's `result`
directly through the recursion yields the same ordered map.  `procEntries`
is the `for (const [key, value] of Object.entries(object))` loop over an
object's entries (`Array.isArray` is tested before the object branch, and a
falsy `null` takes the scalar branch); `procItems` is the
`value.forEach((item, index) => ...)` loop over an array-valued property;
`procArrAsObj` is the recursive `processProperties(item, ...)` call applied
to an array item that is itself an array, whose `Object.entries` are its
index-keyed elements. -/
mutual

def procEntries : List (String × String) → String → List (String × JsVal) →
    List (String × String)
  | result, _, [] => result
  | result, pfx, (key, JsVal.arr items) :: rest =>
      let newKey := if pfx = "" then key else pfx ++ "_" ++ key
      procEntries (procItems result newKey 0 items) pfx rest
  | result, pfx, (key, JsVal.obj fields) :: rest =>
      let newKey := if pfx = "" then key else pfx ++ "_" ++ key
      procEntries (procEntries result newKey fields) pfx rest
  | result, pfx, (key, v) :: rest =>
      let newKey := if pfx = "" then key else pfx ++ "_" ++ key
      procEntries (mapSet result newKey (scalarOrEmpty v)) pfx rest
termination_by _ _ fs => sizeOf fs
decreasing_by all_goals (simp_wf <;> omega)

def procItems : List (String × String) → String → Nat → List JsVal →
    List (String × String)
  | result, _, _, [] => result
  | result, newKey, index, JsVal.arr items :: rest =>
      procItems (procArrAsObj result (newKey ++ "_" ++ toString index) 0 items)
        newKey (index + 1) rest
  | result, newKey, index, JsVal.obj fields :: rest =>
      procItems (procEntries result (newKey ++ "_" ++ toString index) fields)
        newKey (index + 1) rest
  | result, newKey, index, item :: rest =>
      procItems (mapSet result (newKey ++ "_" ++ toString index) (jsString item))
        newKey (index + 1) rest
termination_by _ _ _ xs => sizeOf xs
decreasing_by all_goals (simp_wf <;> omega)

def procArrAsObj : List (String × String) → String → Nat → List JsVal →
    List (String × String)
  | result, _, _, [] => result
  | result, pfx, index, JsVal.arr items :: rest =>
      let newKey := if pfx = "" then toString index else pfx ++ "_" ++ toString index
      procArrAsObj (procItems result newKey 0 items) pfx (index + 1) rest
  | result, pfx, index, JsVal.obj fields :: rest =>
      let newKey := if pfx = "" then toString index else pfx ++ "_" ++ toString index
      procArrAsObj (procEntries result newKey fields) pfx (index + 1) rest
  | result, pfx, index, item :: rest =>
      let newKey := if pfx = "" then toString index else pfx ++ "_" ++ toString index
      procArrAsObj (mapSet result newKey (scalarOrEmpty item)) pfx (index + 1) rest
termination_by _ _ _ xs => sizeOf xs
decreasing_by all_goals (simp_wf <;> omega)

end

/-- Source `processProperties(object)` with the default empty prefix, on the entry
list of the input object. -/
def processProperties (fields : List (String × JsVal)) : List (String × String) :=
  procEntries [] "" fields

/- The ordered list of flattened leaves of an entry list: each leaf value
paired with its derived underscore-joined key, before any collision
resolution.  `specLeavesE`, `specLeavesI` and `specLeavesA` mirror the three
traversal modes of `procEntries`, `procItems` and `procArrAsObj`. -/
mutual

def specLeavesE : String → List (String × JsVal) → List (String × String)
  | _, [] => []
  | pfx, (key, JsVal.arr items) :: rest =>
      let newKey := if pfx = "" then key else pfx ++ "_" ++ key
      specLeavesI newKey 0 items ++ specLeavesE pfx rest
  | pfx, (key, JsVal.obj fields) :: rest =>
      let newKey := if pfx = "" then key else pfx ++ "_" ++ key
      specLeavesE newKey fields ++ specLeavesE pfx rest
  | pfx, (key, v) :: rest =>
      let newKey := if pfx = "" then key else pfx ++ "_" ++ key
      (newKey, scalarOrEmpty v) :: specLeavesE pfx rest

def specLeavesI : String → Nat → List JsVal → List (String × String)
  | _, _, [] => []
  | newKey, index, JsVal.arr items :: rest =>
      specLeavesA (newKey ++ "_" ++ toString index) 0 items ++
        specLeavesI newKey (index + 1) rest
  | newKey, index, JsVal.obj fields :: rest =>
      specLeavesE (newKey ++ "_" ++ toString index) fields ++
        specLeavesI newKey (index + 1) rest
  | newKey, index, item :: rest =>
      (newKey ++ "_" ++ toString index, jsString item) ::
        specLeavesI newKey (index + 1) rest

def specLeavesA : String → Nat → List JsVal → List (String × String)
  | _, _, [] => []
  | pfx, index, JsVal.arr items :: rest =>
      let newKey := if pfx = "" then toString index else pfx ++ "_" ++ toString index
      specLeavesI newKey 0 items ++ specLeavesA pfx (index + 1) rest
  | pfx, index, JsVal.obj fields :: rest =>
      let newKey := if pfx = "" then toString index else pfx ++ "_" ++ toString index
      specLeavesE newKey fields ++ specLeavesA pfx (index + 1) rest
  | pfx, index, item :: rest =>
      let newKey := if pfx = "" then toString index else pfx ++ "_" ++ toString index
      (newKey, scalarOrEmpty item) :: specLeavesA pfx (index + 1) rest

end

/- The flattening loops replay exactly the derived leaves, in traversal
order, through JavaScript assignment into the accumulated result object. -/
mutual

theorem procEntries_spec (r : List (String × String)) (p : String) :
    (fs : List (String × JsVal)) → procEntries r p fs = jsAssign r (specLeavesE p fs)
  | [] => by simp [procEntries, specLeavesE, jsAssign]
  | (key, JsVal.arr items) :: rest => by
      rw [procEntries, specLeavesE, jsAssign_append, procItems_spec,
        procEntries_spec]
  | (key, JsVal.obj fields) :: rest => by
      rw [procEntries, specLeavesE, jsAssign_append, procEntries_spec,
        procEntries_spec]
  | (key, JsVal.str s) :: rest => by
      rw [procEntries, specLeavesE, procEntries_spec]
      case _ => rfl
      all_goals simp
  | (key, JsVal.num q) :: rest => by
      rw [procEntries, specLeavesE, procEntries_spec]
      case _ => rfl
      all_goals simp
  | (key, JsVal.boolean b) :: rest => by
      rw [procEntries, specLeavesE, procEntries_spec]
      case _ => rfl
      all_goals simp
  | (key, JsVal.null) :: rest => by
      rw [procEntries, specLeavesE, procEntries_spec]
      case _ => rfl
      all_goals simp
  | (key, JsVal.undef) :: rest => by
      rw [procEntries, specLeavesE, procEntries_spec]
      case _ => rfl
      all_goals simp
termination_by fs => sizeOf fs
decreasing_by all_goals (simp_wf <;> omega)

theorem procItems_spec (r : List (String × String)) (nk : String) (i : Nat) :
    (xs : List JsVal) → procItems r nk i xs = jsAssign r (specLeavesI nk i xs)
  | [] => by simp [procItems, specLeavesI, jsAssign]
  | JsVal.arr items :: rest => by
      rw [procItems, specLeavesI, jsAssign_append, procArrAsObj_spec, procItems_spec]
  | JsVal.obj fields :: rest => by
      rw [procItems, specLeavesI, jsAssign_append, procEntries_spec, procItems_spec]
  | JsVal.str s :: rest => by
      rw [procItems, specLeavesI, procItems_spec]
      case _ => rfl
      all_goals simp
  | JsVal.num q :: rest => by
      rw [procItems, specLeavesI, procItems_spec]
      case _ => rfl
      all_goals simp
  | JsVal.boolean b :: rest => by
      rw [procItems, specLeavesI, procItems_spec]
      case _ => rfl
      all_goals simp
  | JsVal.null :: rest => by
      rw [procItems, specLeavesI, procItems_spec]
      case _ => rfl
      all_goals simp
  | JsVal.undef :: rest => by
      rw [procItems, specLeavesI, procItems_spec]
      case _ => rfl
      all_goals simp
termination_by xs => sizeOf xs
decreasing_by all_goals (simp_wf <;> omega)

theorem procArrAsObj_spec (r : List (String × String)) (p : String) (i : Nat) :
    (xs : List JsVal) → procArrAsObj r p i xs = jsAssign r (specLeavesA p i xs)
  | [] => by simp [procArrAsObj, specLeavesA, jsAssign]
  | JsVal.arr items :: rest => by
      rw [procArrAsObj, specLeavesA, jsAssign_append, procItems_spec,
        procArrAsObj_spec]
  | JsVal.obj fields :: rest => by
      rw [procArrAsObj, specLeavesA, jsAssign_append, procEntries_spec,
        procArrAsObj_spec]
  | JsVal.str s :: rest => by
      rw [procArrAsObj, specLeavesA, procArrAsObj_spec]
      case _ => rfl
      all_goals simp
  | JsVal.num q :: rest => by
      rw [procArrAsObj, specLeavesA, procArrAsObj_spec]
      case _ => rfl
      all_goals simp
  | JsVal.boolean b :: rest => by
      rw [procArrAsObj, specLeavesA, procArrAsObj_spec]
      case _ => rfl
      all_goals simp
  | JsVal.null :: rest => by
      rw [procArrAsObj, specLeavesA, procArrAsObj_spec]
      case _ => rfl
      all_goals simp
  | JsVal.undef :: rest => by
      rw [procArrAsObj, specLeavesA, procArrAsObj_spec]
      case _ => rfl
      all_goals simp
termination_by xs => sizeOf xs
decreasing_by all_goals (simp_wf <;> omega)

end

theorem mapGet_append_of_none {β : Type} (a b : List (String × β)) (k : String)
    (h : mapGet a k = none) : mapGet (a ++ b) k = mapGet b k := by
  induction a with
  | nil => simp
  | cons hd tl ih =>
      obtain ⟨k1, v1⟩ := hd
      by_cases hk : k1 = k
      · simp [mapGet, hk] at h
      · simp only [List.cons_append, mapGet, hk, if_neg hk] at h ⊢
        exact ih h

theorem mapSet_eq_append {β : Type} (m : List (String × β)) (k : String) (v : β)
    (h : mapGet m k = none) : mapSet m k v = m ++ [(k, v)] := by
  induction m with
  | nil => simp [mapSet]
  | cons hd tl ih =>
      obtain ⟨k1, v1⟩ := hd
      by_cases hk : k1 = k
      · simp [mapGet, hk] at h
      · simp only [mapGet, hk, if_neg hk] at h
        simp [mapSet, hk, ih h]

/-- Assigning a source whose keys are fresh and pairwise distinct appends it
verbatim: no leaf is overwritten. -/
theorem jsAssign_of_nodup {β : Type} (l : List (String × β)) :
    ∀ m : List (String × β), (∀ kv ∈ l, mapGet m kv.1 = none) →
      (l.map Prod.fst).Nodup → jsAssign m l = m ++ l := by
  induction l with
  | nil => intro m _ _; simp [jsAssign]
  | cons hd tl ih =>
      intro m hfresh hnodup
      obtain ⟨k, v⟩ := hd
      have hmk : mapGet m k = none := hfresh (k, v) (by simp)
      have step : jsAssign m ((k, v) :: tl) = jsAssign (m ++ [(k, v)]) tl := by
        simp [jsAssign, mapSet_eq_append m k v hmk]
      rw [step, ih (m ++ [(k, v)]) ?fresh ?nodup]
      · simp
      case fresh =>
        intro kv hkv
        have h1 : mapGet m kv.1 = none := hfresh kv (by simp [hkv])
        have h2 : kv.1 ≠ k := by
          simp only [List.map_cons, List.nodup_cons] at hnodup
          intro he
          exact hnodup.1 (he ▸ List.mem_map_of_mem Prod.fst hkv)
        have h3 : ¬k = kv.1 := fun he => h2 he.symm
        rw [mapGet_append_of_none m [(k, v)] kv.1 h1]
        simp [mapGet, h3]
      case nodup =>
        simp only [List.map_cons, List.nodup_cons] at hnodup
        exact hnodup.2

/-- C6 counterexample: the claim says every `null`/`undefined` leaf becomes
the empty string, but a `null` array element goes through the
`String(item)` branch of the `forEach` loop and flattens to the string
`"null"`, not to `""`: for the input object `{ a: [null] }` the produced
flat value at the derived key `a_0` is `"null"`. -/
theorem processProperties_null_array_element_counterexample :
    processProperties [("a", JsVal.arr [JsVal.null])] = [("a_0", "null")] ∧
    mapGet (processProperties [("a", JsVal.arr [JsVal.null])]) "a_0" ≠ some "" := by
  have h : processProperties [("a", JsVal.arr [JsVal.null])] = [("a_0", "null")] := by
    simp [processProperties, procEntries, procItems, jsString, mapSet]
    decide
  refine ⟨h, ?_⟩
  rw [h]
  simp [mapGet]

/-- C6 amended: flattening places each leaf at its derived
`parent_child` / `parent_index` underscore-joined key by last-write-wins
assignment in traversal order, where — per `specLeavesE`/`specLeavesI`/
`specLeavesA` — a `null`/`undefined` value met as a direct object property
becomes the empty string (`scalarOrEmpty`), a `null`/`undefined` array
element is stringified to `"null"`/`"undefined"` (`jsString`), and every
other scalar leaf is stringified. -/
theorem processProperties_flattens_derived_leaves (fields : List (String × JsVal)) :
    processProperties fields = jsAssign [] (specLeavesE "" fields) :=
  procEntries_spec [] "" fields

/-- C7 counterexample: flattening is not lossless for every input.  In
`{ a: { b: "x" }, a_b: "y" }` the two leaves `"x"` and `"y"` derive the same
flat key `a_b`; the later write wins, and the leaf value `"x"` is absent
from the produced flat values — the value sets differ. -/
theorem processProperties_collision_counterexample :
    processProperties [("a", JsVal.obj [("b", JsVal.str "x")]), ("a_b", JsVal.str "y")] =
      [("a_b", "y")] ∧
    (specLeavesE "" [("a", JsVal.obj [("b", JsVal.str "x")]), ("a_b", JsVal.str "y")]).map
      Prod.snd = ["x", "y"] ∧
    "x" ∉ (processProperties
      [("a", JsVal.obj [("b", JsVal.str "x")]), ("a_b", JsVal.str "y")]).map Prod.snd := by
  have h : processProperties
      [("a", JsVal.obj [("b", JsVal.str "x")]), ("a_b", JsVal.str "y")] = [("a_b", "y")] := by
    simp [processProperties, procEntries, jsString, scalarOrEmpty, mapSet]
  refine ⟨h, ?_, ?_⟩
  · simp [specLeavesE, scalarOrEmpty, jsString]
  · rw [h]; simp

/-- C7 amended: whenever the derived leaf keys are pairwise distinct —
the expected situation for the upstream schemas — flattening is lossless:
the output is exactly the ordered list of (derived key, converted leaf
value) pairs, so every leaf appears under a unique derived key and the
produced flat values are exactly the converted leaf values. -/
theorem processProperties_lossless_of_nodup_keys (fields : List (String × JsVal))
    (h : ((specLeavesE "" fields).map Prod.fst).Nodup) :
    processProperties fields = specLeavesE "" fields ∧
    (processProperties fields).map Prod.snd = (specLeavesE "" fields).map Prod.snd := by
  have heq : processProperties fields = specLeavesE "" fields := by
    rw [processProperties, procEntries_spec [] "" fields,
      jsAssign_of_nodup (specLeavesE "" fields) [] (fun kv _ => rfl) h]
    simp
  exact ⟨heq, by rw [heq]⟩

/-- Witness for `processProperties_lossless_of_nodup_keys` at the concrete
input `{ a: { b: "x" }, c: "y" }`. -/
theorem processProperties_lossless_of_nodup_keys_witness :
    ((specLeavesE "" [("a", JsVal.obj [("b", JsVal.str "x")]), ("c", JsVal.str "y")]).map
      Prod.fst).Nodup ∧
    processProperties [("a", JsVal.obj [("b", JsVal.str "x")]), ("c", JsVal.str "y")] =
      specLeavesE "" [("a", JsVal.obj [("b", JsVal.str "x")]), ("c", JsVal.str "y")] := by
  have h : ((specLeavesE ""
      [("a", JsVal.obj [("b", JsVal.str "x")]), ("c", JsVal.str "y")]).map
      Prod.fst).Nodup := by
    simp [specLeavesE, scalarOrEmpty, jsString]
  exact ⟨h, (processProperties_lossless_of_nodup_keys _ h).1⟩

/-! ## Error classification (`isNotFoundError`, part_004 lines 675-694) -/

/-- A regex word character, for the `\b` boundaries of `/\b404\b/`. -/
def isWordChar (c : Char) : Bool := c.isAlphanum || c = '_'

/-- Source `/\b404\b/.test(s)` scanned over the character list, carrying the
previous character to decide the left word boundary. -/
def hasWord404 : Option Char → List Char → Bool
  | _, [] => false
  | prev, c :: rest =>
      (if c = '4' then
        match rest with
        | '0' :: '4' :: tail =>
            (match prev with
              | none => true
              | some p => ¬ isWordChar p) &&
            (match tail with
              | [] => true
              | t :: _ => ¬ isWordChar t)
        | _ => false
      else false) || hasWord404 (some c) rest

/-- Source `/\b404\b/.test(s)`. -/
def stringHasWord404 (s : String) : Bool := hasWord404 none s.toList

/-- The error shape probed by `isNotFoundError`: the four optional numeric
status fields of its `??` chain (modelled as integers, the value `Number(x)`
compares against 404) and the optional `message` string. -/
structure JsError where
  detailsHttpStatus : Option Int
  responseStatus : Option Int
  status : Option Int
  httpStatus : Option Int
  message : Option String
deriving Repr, DecidableEq

/-- Source `isNotFoundError(error)` (part_004 lines 678-694): take the first
non-nullish of `error?.details?.httpStatus ?? error?.response?.status ??
error?.status ?? error?.httpStatus`; if it is 404 the error is an expected
absence; otherwise fall back to testing `String(error?.message ?? "")`
against `/\b404\b/`. -/
def isNotFoundError (error : JsError) : Bool :=
  let status :=
    ((error.detailsHttpStatus.orElse fun _ => error.responseStatus).orElse
      fun _ => error.status).orElse fun _ => error.httpStatus
  match status with
  | some n => if n = 404 then true else stringHasWord404 (error.message.getD "")
  | none => stringHasWord404 (error.message.getD "")

/-! ## Request state, resilient fetcher and deduplicator
(part_004 lines 44-60, 588-615, 983-1014) -/

/-- The caching / in-flight portion of the module-level `state` object.
`inFlightRequests` maps a cache key to the id of its pending promise;
`issuedRequests` journals every network call handed to `request(url, ...)`;
`errorLog` and `warnLog` collect `console.error` / `console.warn` output. -/
structure ReqState where
  failedRequestCache : Cache Bool
  forecastCache : Cache JsVal
  latestObservationsCache : Cache JsVal
  observationStationsCache : Cache JsVal
  pointsCache : Cache JsVal
  inFlightRequests : List (String × Nat)
  nextPromiseId : Nat
  issuedRequests : List (String × String)
  errorLog : List String
  warnLog : List String

/-- The initial `state`: every cache and registry empty. -/
def initialReqState : ReqState :=
  { failedRequestCache := []
    forecastCache := []
    latestObservationsCache := []
    observationStationsCache := []
    pointsCache := []
    inFlightRequests := []
    nextPromiseId := 0
    issuedRequests := []
    errorLog := []
    warnLog := [] }

/-- The synchronous prefix of `executeRequest` (part_004 lines 589-615), up
to its first suspension at `await request(url, { headers, timeout })`: the
network request for `url` is initiated here.  Returns the id of the
resulting pending promise. -/
def executeRequestStart (s : ReqState) (cacheKey url : String) : Nat × ReqState :=
  (s.nextPromiseId,
    { s with
        issuedRequests := s.issuedRequests ++ [(cacheKey, url)]
        nextPromiseId := s.nextPromiseId + 1 })

/-- The remainder of `executeRequest` once the awaited network call settles
with `outcome` at time `now`: on success the failed-request marker for the
key is deleted and the response returned; on failure a failed-request
marker is cached with the 30-second TTL, the failure is additionally logged
when it is not a 404, and `null` is returned.  The `finally` block removes
the in-flight registration unconditionally on both paths. -/
def executeRequestSettle (now : Int) (s : ReqState) (cacheKey url : String)
    (outcome : Except JsError JsVal) : Option JsVal × ReqState :=
  match outcome with
  | .ok response =>
      (some response,
        { s with
            failedRequestCache := mapDelete s.failedRequestCache cacheKey
            inFlightRequests := mapDelete s.inFlightRequests cacheKey })
  | .error error =>
      let s1 := { s with
        failedRequestCache :=
          setCachedValue now s.failedRequestCache cacheKey true
            failedRequestCacheTimeToLive }
      let s2 :=
        if isNotFoundError error then s1
        else { s1 with errorLog := s1.errorLog ++ ["Request failed for " ++ url] }
      (none, { s2 with inFlightRequests := mapDelete s2.inFlightRequests cacheKey })

/-- What a caller of `requestWithDedupe` observes synchronously: either an
immediate `null` (a fresh failed-request marker), or a pending promise
identified by its id. -/
inductive DedupeOutcome where
  | nullResult
  | promiseOf (pid : Nat)
deriving Repr, DecidableEq

/-- The synchronous body of `requestWithDedupe(cacheKey, url)` (part_004
lines 986-1014).  It runs without suspension: the failed-marker check, the
in-flight lookup, the synchronous prefix of `executeRequest` and the
in-flight registration are a single atomic step under the cooperative
scheduler. -/
def requestWithDedupe (now : Int) (s : ReqState) (cacheKey url : String) :
    DedupeOutcome × ReqState :=
  let rf := getCachedValue now s.failedRequestCache cacheKey
  let s0 := { s with failedRequestCache := rf.2 }
  if rf.1 = some true then (.nullResult, s0)
  else
    match mapGet s0.inFlightRequests cacheKey with
    | some pid => (.promiseOf pid, s0)
    | none =>
        let started := executeRequestStart s0 cacheKey url
        (.promiseOf started.1,
          { started.2 with
              inFlightRequests :=
                mapSet started.2.inFlightRequests cacheKey started.1 })

/-- Semantics of `await requestWithDedupe(cacheKey, url)` for one sequential caller: the
synchronous dedupe section runs at `tCall`, and the awaited promise settles
at `tSettle` with the outcome the network oracle `net` assigns to `url`.
Whether this caller created the pending request or attached to an existing
one, the value it observes is produced by the settlement of that same
underlying `executeRequest`. -/
def awaitDedupe (tCall tSettle : Int) (net : String → Except JsError JsVal)
    (s : ReqState) (cacheKey url : String) : Option JsVal × ReqState :=
  match requestWithDedupe tCall s cacheKey url with
  | (.nullResult, s1) => (none, s1)
  | (.promiseOf _, s1) => executeRequestSettle tSettle s1 cacheKey url (net url)

/-- Model of `n` concurrent callers for the same key running their synchronous
dedupe sections back-to-back before the pending request settles; the
cooperative scheduler serializes them. -/
def runCallers (now : Int) (s : ReqState) (cacheKey url : String) :
    Nat → List DedupeOutcome × ReqState
  | 0 => ([], s)
  | n + 1 =>
      let step := requestWithDedupe now s cacheKey url
      let rest := runCallers now step.2 cacheKey url n
      (step.1 :: rest.1, rest.2)

/-- Reading the failed-request marker is idempotent: a second read at the
same instant sees the same verdict (the only mutation is the deletion of an
already-expired entry). -/
theorem getCachedValue_idem {α : Type} (now : Int) (c : Cache α) (k : String) :
    (getCachedValue now (getCachedValue now c k).2 k).1 = (getCachedValue now c k).1 := by
  unfold getCachedValue
  match h : mapGet c k with
  | none => simp [h]
  | some entry =>
      by_cases hexp : now ≥ entry.expiresAt
      · simp [h, hexp, mapGet_mapDelete_self]
      · simp [h, hexp]

/-- A fresh `requestWithDedupe` call — no unexpired marker, nothing in
flight — issues the network request, registers the new pending promise and
returns it. -/
theorem requestWithDedupe_fresh (now : Int) (s : ReqState) (k u : String)
    (hmarker : (getCachedValue now s.failedRequestCache k).1 ≠ some true)
    (hflight : mapGet s.inFlightRequests k = none) :
    requestWithDedupe now s k u =
      (.promiseOf s.nextPromiseId,
        { s with
            failedRequestCache := (getCachedValue now s.failedRequestCache k).2
            issuedRequests := s.issuedRequests ++ [(k, u)]
            nextPromiseId := s.nextPromiseId + 1
            inFlightRequests := mapSet s.inFlightRequests k s.nextPromiseId }) := by
  unfold requestWithDedupe executeRequestStart
  simp only [if_neg hmarker, hflight]

/-- A transient-classified error for the counterexamples: no status field
and a message without `404`. -/
def timeoutJsError : JsError :=
  { detailsHttpStatus := none
    responseStatus := none
    status := none
    httpStatus := none
    message := some "Request timed out" }

/-- An expected-absence error: an upstream HTTP 404. -/
def notFoundJsError : JsError :=
  { detailsHttpStatus := some 404
    responseStatus := none
    status := none
    httpStatus := none
    message := some "404 Not Found" }

/-- C1 counterexample: a transient (non-404) failure IS cached in the
failed-request marker cache with the 30-second TTL — refuting the claim
that a transient network/timeout failure is "NOT cached negatively, so that
key is retried on the next request cycle".  `timeoutJsError` is classified
as transient (`isNotFoundError` is false, so it is logged), yet after the
request settles the marker for its key is present and unexpired. -/
theorem executeRequest_transient_failure_cached_counterexample :
    isNotFoundError timeoutJsError = false ∧
    (executeRequestSettle 0 initialReqState "observations:KPDX"
      "https://api.weather.gov/stations/KPDX/observations/latest"
      (.error timeoutJsError)).2.failedRequestCache =
      [("observations:KPDX", { value := true, expiresAt := 30000 })] ∧
    (requestWithDedupe 1000
      (executeRequestSettle 0 initialReqState "observations:KPDX"
        "https://api.weather.gov/stations/KPDX/observations/latest"
        (.error timeoutJsError)).2
      "observations:KPDX"
      "https://api.weather.gov/stations/KPDX/observations/latest").1 =
      DedupeOutcome.nullResult := by
  refine ⟨rfl, rfl, rfl⟩

/-- C1 amended: for every failed request the error is classified, and the
classification decides only the logging: a 404 "expected absence" is not
logged, any other failure is logged; in BOTH cases the negative result is
cached in the failed-request marker cache with the 30-second TTL, and the
caller receives `null`.  On success the marker for the key is cleared and
the response is returned. -/
theorem executeRequest_failure_classification (now : Int) (s : ReqState)
    (cacheKey url : String) (error : JsError) :
    (executeRequestSettle now s cacheKey url (.error error)).1 = none ∧
    mapGet (executeRequestSettle now s cacheKey url
        (.error error)).2.failedRequestCache cacheKey =
      some { value := true, expiresAt := now + failedRequestCacheTimeToLive } ∧
    (executeRequestSettle now s cacheKey url (.error error)).2.errorLog =
      (if isNotFoundError error then s.errorLog
        else s.errorLog ++ ["Request failed for " ++ url]) ∧
    (∀ response,
      (executeRequestSettle now s cacheKey url (.ok response)).1 = some response ∧
      mapGet (executeRequestSettle now s cacheKey url
          (.ok response)).2.failedRequestCache cacheKey = none) := by
  refine ⟨?_, ?_, ?_, ?_⟩
  · by_cases h : isNotFoundError error <;>
      simp [executeRequestSettle, h]
  · by_cases h : isNotFoundError error <;>
      simp [executeRequestSettle, h, setCachedValue, mapGet_mapSet_self]
  · by_cases h : isNotFoundError error <;>
      simp [executeRequestSettle, h]
  · intro response
    exact ⟨rfl, by simp [executeRequestSettle, mapGet_mapDelete_self]⟩

/-- Helper for C2: callers that find an in-flight registration attach to it
and change nothing but the (idempotent) failed-marker read. -/
theorem runCallers_attach (now : Int) (k u : String) (pid : Nat) :
    ∀ (n : Nat) (s : ReqState),
      (getCachedValue now s.failedRequestCache k).1 ≠ some true →
      mapGet s.inFlightRequests k = some pid →
      (runCallers now s k u n).1 = List.replicate n (.promiseOf pid) ∧
      (runCallers now s k u n).2.issuedRequests = s.issuedRequests ∧
      (runCallers now s k u n).2.inFlightRequests = s.inFlightRequests ∧
      (runCallers now s k u n).2.nextPromiseId = s.nextPromiseId := by
  intro n
  induction n with
  | zero => intro s _ _; simp [runCallers]
  | succ m ih =>
      intro s hmarker hflight
      have hstep : requestWithDedupe now s k u =
          (.promiseOf pid, { s with failedRequestCache :=
            (getCachedValue now s.failedRequestCache k).2 }) := by
        unfold requestWithDedupe
        simp only [if_neg hmarker, hflight]
      have hm2 : (getCachedValue now ({ s with failedRequestCache :=
          (getCachedValue now s.failedRequestCache k).2 } :
          ReqState).failedRequestCache k).1 ≠ some true := by
        simpa [getCachedValue_idem] using hmarker
      have hf2 : mapGet ({ s with failedRequestCache :=
          (getCachedValue now s.failedRequestCache k).2 } :
          ReqState).inFlightRequests k = some pid := hflight
      obtain ⟨h1, h2, h3, h4⟩ := ih _ hm2 hf2
      refine ⟨?_, ?_, ?_, ?_⟩ <;>
        simp [runCallers, hstep, h1, h2, h3, h4, List.replicate_succ]

/-- C2: for all `n ≥ 1` concurrent callers requesting the same cache key
within the lifetime of one pending operation (no marker, nothing yet in
flight): exactly one underlying network call is issued, every caller
receives the same pending promise (hence the same settled result), the
in-flight registration is removed when the call settles — success or
failure alike, by the `finally` cleanup — and once a failure's 30-second
marker has expired a later request for the key issues a fresh network call,
so one failed call never permanently blocks the key. -/
theorem requestWithDedupe_coalesces (now : Int) (s : ReqState) (cacheKey url : String)
    (n : Nat) (hn : 1 ≤ n)
    (hmarker : (getCachedValue now s.failedRequestCache cacheKey).1 ≠ some true)
    (hflight : mapGet s.inFlightRequests cacheKey = none) :
    (runCallers now s cacheKey url n).1 =
      List.replicate n (DedupeOutcome.promiseOf s.nextPromiseId) ∧
    (runCallers now s cacheKey url n).2.issuedRequests =
      s.issuedRequests ++ [(cacheKey, url)] ∧
    (∀ tSettle outcome,
      mapGet (executeRequestSettle tSettle (runCallers now s cacheKey url n).2
        cacheKey url outcome).2.inFlightRequests cacheKey = none) ∧
    (∀ tSettle error t, t ≥ tSettle + failedRequestCacheTimeToLive →
      (requestWithDedupe t
        (executeRequestSettle tSettle (runCallers now s cacheKey url n).2 cacheKey url
          (.error error)).2 cacheKey url).2.issuedRequests =
        (runCallers now s cacheKey url n).2.issuedRequests ++ [(cacheKey, url)]) := by
  obtain ⟨m, rfl⟩ : ∃ m, n = m + 1 := ⟨n - 1, by omega⟩
  have hstep := requestWithDedupe_fresh now s cacheKey url hmarker hflight
  set s1 : ReqState :=
    { s with
        failedRequestCache := (getCachedValue now s.failedRequestCache cacheKey).2
        issuedRequests := s.issuedRequests ++ [(cacheKey, url)]
        nextPromiseId := s.nextPromiseId + 1
        inFlightRequests := mapSet s.inFlightRequests cacheKey s.nextPromiseId } with hs1
  have hm1 : (getCachedValue now s1.failedRequestCache cacheKey).1 ≠ some true := by
    simpa [hs1, getCachedValue_idem] using hmarker
  have hf1 : mapGet s1.inFlightRequests cacheKey = some s.nextPromiseId := by
    simp [hs1, mapGet_mapSet_self]
  obtain ⟨h1, h2, h3, h4⟩ := runCallers_attach now cacheKey url s.nextPromiseId m s1 hm1 hf1
  have hrun : runCallers now s cacheKey url (m + 1) =
      ((DedupeOutcome.promiseOf s.nextPromiseId) :: (runCallers now s1 cacheKey url m).1,
        (runCallers now s1 cacheKey url m).2) := by
    simp [runCallers, hstep, hs1]
  refine ⟨?_, ?_, ?_, ?_⟩
  · rw [hrun]
    simp [h1, List.replicate_succ]
  · rw [hrun]
    simpa [hs1] using h2
  · intro tSettle outcome
    rw [hrun]
    match outcome with
    | .ok r => simp [executeRequestSettle, mapGet_mapDelete_self]
    | .error e =>
        by_cases h : isNotFoundError e <;>
          simp [executeRequestSettle, h, mapGet_mapDelete_self]
  · intro tSettle error t ht
    rw [hrun]
    set s2 : ReqState := (runCallers now s1 cacheKey url m).2 with hs2
    have hset : (executeRequestSettle tSettle s2 cacheKey url
        (.error error)).2.failedRequestCache =
        setCachedValue tSettle s2.failedRequestCache cacheKey true
          failedRequestCacheTimeToLive := by
      by_cases h : isNotFoundError error <;> simp [executeRequestSettle, h]
    have hifr : (executeRequestSettle tSettle s2 cacheKey url
        (.error error)).2.inFlightRequests = mapDelete s2.inFlightRequests cacheKey := by
      by_cases h : isNotFoundError error <;> simp [executeRequestSettle, h]
    have hiss : (executeRequestSettle tSettle s2 cacheKey url
        (.error error)).2.issuedRequests = s2.issuedRequests := by
      by_cases h : isNotFoundError error <;> simp [executeRequestSettle, h]
    set s3 : ReqState := (executeRequestSettle tSettle s2 cacheKey url (.error error)).2
      with hs3
    have hmark3 : (getCachedValue t s3.failedRequestCache cacheKey).1 = none := by
      rw [hs3, hset]
      simp only [getCachedValue, setCachedValue, mapGet_mapSet_self]
      rw [if_pos (by omega)]
    have hflight3 : mapGet s3.inFlightRequests cacheKey = none := by
      rw [hs3, hifr, mapGet_mapDelete_self]
    rw [requestWithDedupe_fresh t s3 cacheKey url (by rw [hmark3]; simp) hflight3]
    simp [hiss]

/-- Witness for `requestWithDedupe_coalesces`: three concurrent callers on
the empty initial state share promise 0 and cause exactly one issued
request. -/
theorem requestWithDedupe_coalesces_witness :
    (1 ≤ 3 ∧
      (getCachedValue 0 initialReqState.failedRequestCache "k").1 ≠ some true ∧
      mapGet initialReqState.inFlightRequests "k" = none) ∧
    (runCallers 0 initialReqState "k" "https://example.test/k" 3).1 =
      List.replicate 3 (DedupeOutcome.promiseOf 0) ∧
    (runCallers 0 initialReqState "k" "https://example.test/k" 3).2.issuedRequests =
      [("k", "https://example.test/k")] := by
  have h := requestWithDedupe_coalesces 0 initialReqState "k" "https://example.test/k" 3
    (by omega) (by simp [initialReqState, getCachedValue, mapGet]) rfl
  exact ⟨⟨by omega, by simp [initialReqState, getCachedValue, mapGet], rfl⟩, h.1, h.2.1⟩

/-- C4: while a not-yet-expired failed-request marker exists for a key,
every `requestWithDedupe` for that key returns `null` immediately and
issues zero network calls, leaving the state untouched; in particular, for
two fetches of the same key where the underlying call 404s, a second fetch
within the 30-second marker window performs no network call and returns
`null`. -/
theorem failed_marker_suppresses_retry (now : Int) (s : ReqState)
    (cacheKey url : String) (e : CacheEntry Bool)
    (hentry : mapGet s.failedRequestCache cacheKey = some e)
    (hval : e.value = true) (hfresh : now < e.expiresAt) :
    requestWithDedupe now s cacheKey url = (.nullResult, s) ∧
    (∀ (t0 t1 t2 t3 : Int) (net : String → Except JsError JsVal) (s0 : ReqState)
        (err : JsError),
      net url = .error err →
      isNotFoundError err = true →
      (getCachedValue t0 s0.failedRequestCache cacheKey).1 ≠ some true →
      mapGet s0.inFlightRequests cacheKey = none →
      t2 < t1 + failedRequestCacheTimeToLive →
      (awaitDedupe t0 t1 net s0 cacheKey url).1 = none ∧
      (awaitDedupe t2 t3 net (awaitDedupe t0 t1 net s0 cacheKey url).2
        cacheKey url).1 = none ∧
      (awaitDedupe t2 t3 net (awaitDedupe t0 t1 net s0 cacheKey url).2
          cacheKey url).2.issuedRequests =
        (awaitDedupe t0 t1 net s0 cacheKey url).2.issuedRequests) := by
  constructor
  · have hread : getCachedValue now s.failedRequestCache cacheKey =
        (some true, s.failedRequestCache) := by
      simp only [getCachedValue, hentry]
      rw [if_neg (by omega)]
      rw [hval]
    unfold requestWithDedupe
    rw [hread]
    simp
  · intro t0 t1 t2 t3 net s0 err hnet h404 hmarker0 hflight0 hwindow
    have hstep := requestWithDedupe_fresh t0 s0 cacheKey url hmarker0 hflight0
    have hfirst : awaitDedupe t0 t1 net s0 cacheKey url =
        (none,
          { s0 with
              failedRequestCache :=
                setCachedValue t1
                  (getCachedValue t0 s0.failedRequestCache cacheKey).2 cacheKey true
                  failedRequestCacheTimeToLive
              issuedRequests := s0.issuedRequests ++ [(cacheKey, url)]
              nextPromiseId := s0.nextPromiseId + 1
              inFlightRequests :=
                mapDelete (mapSet s0.inFlightRequests cacheKey s0.nextPromiseId)
                  cacheKey }) := by
      unfold awaitDedupe
      rw [hstep, hnet]
      simp [executeRequestSettle, h404]
    refine ⟨by rw [hfirst], ?_, ?_⟩ <;>
    · rw [hfirst]
      have hread2 : (getCachedValue t2
          (setCachedValue t1 (getCachedValue t0 s0.failedRequestCache cacheKey).2
            cacheKey true failedRequestCacheTimeToLive) cacheKey) =
          (some true,
            setCachedValue t1 (getCachedValue t0 s0.failedRequestCache cacheKey).2
              cacheKey true failedRequestCacheTimeToLive) := by
        simp only [getCachedValue, setCachedValue, mapGet_mapSet_self]
        rw [if_neg (by omega)]
      unfold awaitDedupe requestWithDedupe
      rw [hread2]
      simp

/-- Witness for `failed_marker_suppresses_retry` at a concrete state with a
fresh marker, and the concrete two-fetch 404 scenario. -/
theorem failed_marker_suppresses_retry_witness :
    (mapGet
        [("points:45.5231,-122.6765",
          ({ value := true, expiresAt := 30000 } : CacheEntry Bool))]
        "points:45.5231,-122.6765" =
      some { value := true, expiresAt := 30000 } ∧
      (0 : Int) < 30000) ∧
    requestWithDedupe 0
      { initialReqState with
          failedRequestCache :=
            [("points:45.5231,-122.6765", { value := true, expiresAt := 30000 })] }
      "points:45.5231,-122.6765" "https://api.weather.gov/points/45.5231,-122.6765" =
      (.nullResult,
        { initialReqState with
            failedRequestCache :=
              [("points:45.5231,-122.6765", { value := true, expiresAt := 30000 })] }) := by
  refine ⟨⟨rfl, by omega⟩, ?_⟩
  exact (failed_marker_suppresses_retry 0
    { initialReqState with
        failedRequestCache :=
          [("points:45.5231,-122.6765", { value := true, expiresAt := 30000 })] }
    "points:45.5231,-122.6765" "https://api.weather.gov/points/45.5231,-122.6765"
    { value := true, expiresAt := 30000 } rfl rfl (by decide)).1

/-! ## Cached request entry points
(part_004 lines 696-699, 808-981) -/

/-- A JavaScript number as it reaches the coordinate guards: a finite value
carrying its rational magnitude, or a non-finite one (`NaN`, `Infinity`,
`-Infinity` — indistinguishable to `Number.isFinite`, and never used past
the guard). -/
inductive JsNumber where
  | finite (q : ℚ)
  | nonFinite
deriving Repr, DecidableEq

/-- Left-pad a digit string to four places. -/
def padTo4 (n : Nat) : String :=
  let s := toString n
  if s.length ≥ 4 then s else String.mk (List.replicate (4 - s.length) '0') ++ s

/-- Source `normalizeCoordinate(value) = value.toFixed(4)` (part_004 lines
696-699): round to the nearest value with four decimal places — on a tie,
the larger value, i.e. `⌊v * 10000 + 1/2⌋`, written here over the reduced
numerator and denominator as a floor division so that it evaluates by
kernel reduction — and render with exactly four fraction digits. -/
def normalizeCoordinate (value : ℚ) : String :=
  let scaled : Int := Int.fdiv (2 * value.num * 10000 + value.den) (2 * value.den)
  let sign := if scaled < 0 then "-" else ""
  sign ++ toString (scaled.natAbs / 10000) ++ "." ++ padTo4 (scaled.natAbs % 10000)

/-- One step of optional chaining: `x?.name`, where `none` models both a
nullish base and an absent property, and a property access on a non-object
value yields `undefined`. -/
def chainField : Option JsVal → String → Option JsVal
  | some (JsVal.obj fields), name => mapGet fields name
  | _, _ => none

/-- Source `requestForecastByUrl(forecastUrl)` (part_004 lines 838-865): guard the
empty URL, consult the forecast cache, otherwise go through the dedupe
machinery and cache a successful response for five minutes. -/
def requestForecastByUrl (tCall tSettle : Int) (net : String → Except JsError JsVal)
    (s : ReqState) (forecastUrl : String) : Option JsVal × ReqState :=
  if forecastUrl = "" then (none, s)
  else
    let cacheKey := "forecast:" ++ forecastUrl
    let c := getCachedValue tCall s.forecastCache cacheKey
    let s1 := { s with forecastCache := c.2 }
    match c.1 with
    | some cached => (some cached, s1)
    | none =>
        match awaitDedupe tCall tSettle net s1 cacheKey forecastUrl with
        | (some response, s2) =>
            let updated := setCachedValue tSettle s2.forecastCache cacheKey response forecastCacheTimeToLive
            (some response, { s2 with forecastCache := updated })
        | (none, s2) => (none, s2)

/-- Source `requestLatestObservations(stationIdentifier)` (part_004 lines
867-901): guard the empty identifier, consult the observations cache,
otherwise fetch `/stations/:id/observations/latest` through the dedupe
machinery and cache a success for two minutes. -/
def requestLatestObservations (tCall tSettle : Int)
    (net : String → Except JsError JsVal) (s : ReqState)
    (stationIdentifier : String) : Option JsVal × ReqState :=
  if stationIdentifier = "" then (none, s)
  else
    let url := "https://api.weather.gov/stations/" ++ stationIdentifier ++
      "/observations/latest"
    let cacheKey := "observations:" ++ stationIdentifier
    let c := getCachedValue tCall s.latestObservationsCache cacheKey
    let s1 := { s with latestObservationsCache := c.2 }
    match c.1 with
    | some cached => (some cached, s1)
    | none =>
        match awaitDedupe tCall tSettle net s1 cacheKey url with
        | (some response, s2) =>
            let updated := setCachedValue tSettle s2.latestObservationsCache cacheKey response observationsCacheTimeToLive
            (some response, { s2 with latestObservationsCache := updated })
        | (none, s2) => (none, s2)

/-- Source `requestObservationStations(observationStationsUrl)` (part_004 lines
903-933): guard the empty URL, consult the stations cache, otherwise fetch
through the dedupe machinery and cache a success for ten minutes. -/
def requestObservationStations (tCall tSettle : Int)
    (net : String → Except JsError JsVal) (s : ReqState)
    (observationStationsUrl : String) : Option JsVal × ReqState :=
  if observationStationsUrl = "" then (none, s)
  else
    let cacheKey := "stations:" ++ observationStationsUrl
    let c := getCachedValue tCall s.observationStationsCache cacheKey
    let s1 := { s with observationStationsCache := c.2 }
    match c.1 with
    | some cached => (some cached, s1)
    | none =>
        match awaitDedupe tCall tSettle net s1 cacheKey observationStationsUrl with
        | (some response, s2) =>
            let updated := setCachedValue tSettle s2.observationStationsCache cacheKey response pointsStationsCacheTimeToLive
            (some response, { s2 with observationStationsCache := updated })
        | (none, s2) => (none, s2)

/-- Source `requestPoints(latitude, longitude)` (part_004 lines 935-981): `null`
(or `undefined`) and non-finite coordinates are rejected before anything
else; otherwise the coordinates are normalized to four decimal places to
form the cache key and the `/points/` URL, the points cache is consulted,
and a successful dedupe-fetched response is cached for ten minutes. -/
def requestPoints (tCall tSettle : Int) (net : String → Except JsError JsVal)
    (s : ReqState) (latitude longitude : Option JsNumber) : Option JsVal × ReqState :=
  match latitude, longitude with
  | some (.finite la), some (.finite lo) =>
      let normalizedLatitude := normalizeCoordinate la
      let normalizedLongitude := normalizeCoordinate lo
      let cacheKey := "points:" ++ normalizedLatitude ++ "," ++ normalizedLongitude
      let c := getCachedValue tCall s.pointsCache cacheKey
      let s1 := { s with pointsCache := c.2 }
      match c.1 with
      | some cached => (some cached, s1)
      | none =>
          let url := "https://api.weather.gov/points/" ++ normalizedLatitude ++ "," ++
            normalizedLongitude
          match awaitDedupe tCall tSettle net s1 cacheKey url with
          | (some response, s2) =>
              let updated :=
                setCachedValue tSettle s2.pointsCache cacheKey response
                  pointsStationsCacheTimeToLive
              (some response, { s2 with pointsCache := updated })
          | (none, s2) => (none, s2)
  | _, _ => (none, s)

/-- Source `requestForecast(latitude, longitude)` (part_004 lines 808-836): guard
nullish and non-finite coordinates, resolve the grid point, extract
`points?.data?.properties?.forecast`, and — when that URL is truthy —
request the forecast by URL. -/
def requestForecast (tCall tSettle : Int) (net : String → Except JsError JsVal)
    (s : ReqState) (latitude longitude : Option JsNumber) : Option JsVal × ReqState :=
  match latitude, longitude with
  | some (.finite la), some (.finite lo) =>
      let p := requestPoints tCall tSettle net s (some (.finite la)) (some (.finite lo))
      let forecastUrl :=
        chainField (chainField (chainField p.1 "data") "properties") "forecast"
      match forecastUrl with
      | some v =>
          if jsTruthy v then requestForecastByUrl tCall tSettle net p.2 (jsString v)
          else (none, p.2)
      | none => (none, p.2)
  | _, _ => (none, s)

/-- C10: every request entry point, given a falsy or invalid input, returns
`null` immediately with the state — every cache and the in-flight registry —
unchanged and zero network calls issued: `requestLatestObservations` with an
empty station identifier, `requestForecastByUrl` with an empty URL, and
`requestPoints` / `requestForecast` with nullish or non-finite
coordinates. -/
theorem invalid_input_guards (tCall tSettle : Int)
    (net : String → Except JsError JsVal) (s : ReqState)
    (latitude longitude : Option JsNumber)
    (hbad : latitude = none ∨ longitude = none ∨
      latitude = some .nonFinite ∨ longitude = some .nonFinite) :
    requestLatestObservations tCall tSettle net s "" = (none, s) ∧
    requestForecastByUrl tCall tSettle net s "" = (none, s) ∧
    requestPoints tCall tSettle net s latitude longitude = (none, s) ∧
    requestForecast tCall tSettle net s latitude longitude = (none, s) := by
  refine ⟨rfl, rfl, ?_, ?_⟩ <;>
  · rcases hbad with h | h | h | h <;> subst h <;>
      first
        | (cases latitude with
            | none => rfl
            | some la => cases la <;> rfl)
        | (cases longitude with
            | none => rfl
            | some lo => cases lo <;> rfl)

/-- Witness for `invalid_input_guards`: a `null` latitude together with a
non-finite longitude on the initial state. -/
theorem invalid_input_guards_witness :
    ((none : Option JsNumber) = none ∨ some JsNumber.nonFinite = none ∨
      (none : Option JsNumber) = some .nonFinite ∨
      some JsNumber.nonFinite = some JsNumber.nonFinite) ∧
    requestPoints 0 0 (fun _ => .error timeoutJsError) initialReqState none
      (some .nonFinite) = (none, initialReqState) ∧
    requestForecast 0 0 (fun _ => .error timeoutJsError) initialReqState none
      (some .nonFinite) = (none, initialReqState) := by
  have h := invalid_input_guards 0 0 (fun _ => .error timeoutJsError) initialReqState
    none (some .nonFinite) (Or.inl rfl)
  exact ⟨Or.inl rfl, h.2.2.1, h.2.2.2⟩

/-! ## Per-feature fan-out of `createObservationStationsLayer`
(part_004 lines 251-474, main.ts lines 203-382) -/

/-- JavaScript object spread `{...a, ...b}`: values of `b` override
same-named keys of `a` in place, fresh keys of `b` are appended in order. -/
def spreadMerge (a b : List (String × JsVal)) : List (String × JsVal) :=
  jsAssign a b

/-- Chain `resp?.data?.properties ?? {}` as a spread source: the entry list when
the chain reaches an object, otherwise nothing (the upstream payloads only
ever carry objects there). -/
def dataProperties (resp : Option JsVal) : List (String × JsVal) :=
  match chainField (chainField resp "data") "properties" with
  | some (JsVal.obj fields) => fields
  | _ => []

/-- Accessor `feature?.properties?.stationIdentifier`. -/
def featureStationIdentifier (feature : JsVal) : Option JsVal :=
  chainField (chainField (some feature) "properties") "stationIdentifier"

/-- Accessor `feature?.geometry?.coordinates ?? []` (the destructured source array;
a non-array value would not be destructurable and carries no elements). -/
def featureCoordinates (feature : JsVal) : List JsVal :=
  match chainField (chainField (some feature) "geometry") "coordinates" with
  | some (JsVal.arr items) => items
  | _ => []

/-- The entry list behind `{...feature.properties, ...}`. -/
def featureProperties (feature : JsVal) : List (String × JsVal) :=
  match chainField (some feature) "properties" with
  | some (JsVal.obj fields) => fields
  | _ => []

/-- Guard `Number.isFinite(v)` on an optionally-present JavaScript value, keeping
the rational payload when it holds. -/
def jsvalFiniteQ : Option JsVal → Option ℚ
  | some (JsVal.num q) => some q
  | _ => none

/-- Assignment `feature.properties = props` (station features are JSON objects). -/
def setFeatureProperties (feature : JsVal) (props : List (String × String)) : JsVal :=
  match feature with
  | JsVal.obj fields =>
      JsVal.obj (mapSet fields "properties"
        (JsVal.obj (props.map fun kv => (kv.1, JsVal.str kv.2))))
  | other => other

/-- One branch of the per-feature fan-out (part_004 lines 312-352): read
the station identifier and coordinates, skip with a warning when the
identifier is falsy, request the latest observations and (for finite
coordinates) the forecast — `Promise.all` under the cooperative scheduler,
linearized here as observations before forecast — and replace the feature's
properties by the flattened spread-merge of original, observation and
forecast properties.  `branchThrows` models an exception thrown inside the
branch body (for instance during its observation fetch), which the
per-feature `catch` turns into an error log entry, leaving the feature
untouched. -/
def processStationFeature (tCall tSettle : Int) (net : String → Except JsError JsVal)
    (s : ReqState) (feature : JsVal) (branchThrows : Bool) : JsVal × ReqState :=
  if branchThrows then
    (feature,
      { s with errorLog := s.errorLog ++ ["Failed to process data for feature"] })
  else
    match featureStationIdentifier feature with
    | some sidVal =>
        if jsTruthy sidVal then
          let coords := featureCoordinates feature
          let longitude := coords.get? 0
          let latitude := coords.get? 1
          let obs := requestLatestObservations tCall tSettle net s (jsString sidVal)
          let fc :=
            match jsvalFiniteQ latitude, jsvalFiniteQ longitude with
            | some la, some lo =>
                requestForecast tCall tSettle net obs.2 (some (.finite la))
                  (some (.finite lo))
            | _, _ => (none, obs.2)
          let merged :=
            spreadMerge (spreadMerge (featureProperties feature) (dataProperties obs.1))
              (dataProperties fc.1)
          (setFeatureProperties feature (processProperties merged), fc.2)
        else
          (feature,
            { s with warnLog :=
                s.warnLog ++ ["Skipping feature with missing stationIdentifier"] })
    | none =>
        (feature,
          { s with warnLog :=
              s.warnLog ++ ["Skipping feature with missing stationIdentifier"] })

/-- The fan-out over the station features, threading the shared caches;
`throwsAt j` tells whether branch `j` throws. -/
def processStationFeaturesFrom (tCall tSettle : Int)
    (net : String → Except JsError JsVal) : ReqState → Nat → (Nat → Bool) →
    List JsVal → List JsVal × ReqState
  | s, _, _, [] => ([], s)
  | s, j, throwsAt, f :: rest =>
      let r := processStationFeature tCall tSettle net s f (throwsAt j)
      let rr := processStationFeaturesFrom tCall tSettle net r.2 (j + 1) throwsAt rest
      (r.1 :: rr.1, rr.2)

/-- Semantics of `await Promise.all(allFeaturePromises)`: every branch of the fan-out,
from index 0. -/
def processStationFeatures (tCall tSettle : Int)
    (net : String → Except JsError JsVal) (s : ReqState) (throwsAt : Nat → Bool)
    (features : List JsVal) : List JsVal × ReqState :=
  processStationFeaturesFrom tCall tSettle net s 0 throwsAt features

/-- A fresh, successful `requestLatestObservations`: empty failure and
in-flight registries, a cache miss for the station's key, and a network
success.  The response is returned and cached for two minutes; the failure
and in-flight registries end as they began. -/
theorem requestLatestObservations_fresh (tCall tSettle : Int)
    (net : String → Except JsError JsVal) (s : ReqState) (sid : String)
    (r : JsVal) (hsid : ¬sid = "")
    (hfailed : s.failedRequestCache = [])
    (hflight : s.inFlightRequests = [])
    (hmiss : mapGet s.latestObservationsCache ("observations:" ++ sid) = none)
    (hnet : net ("https://api.weather.gov/stations/" ++ sid ++
      "/observations/latest") = .ok r) :
    requestLatestObservations tCall tSettle net s sid =
      (some r,
        { s with
            latestObservationsCache :=
              mapSet s.latestObservationsCache ("observations:" ++ sid)
                { value := r, expiresAt := tSettle + observationsCacheTimeToLive }
            issuedRequests := s.issuedRequests ++
              [("observations:" ++ sid,
                "https://api.weather.gov/stations/" ++ sid ++ "/observations/latest")]
            nextPromiseId := s.nextPromiseId + 1 }) := by
  simp only [requestLatestObservations, if_neg hsid, getCachedValue, hmiss, hfailed,
    hflight, awaitDedupe, requestWithDedupe, executeRequestStart, executeRequestSettle,
    hnet, setCachedValue, mapGet, mapSet, mapDelete, List.filter]
  simp

/-- A fresh, successful `requestPoints`: cache misses, empty registries, a
network success for the normalized `/points/` URL. -/
theorem requestPoints_fresh (tCall tSettle : Int)
    (net : String → Except JsError JsVal) (s : ReqState) (la lo : ℚ) (r : JsVal)
    (hfailed : s.failedRequestCache = [])
    (hflight : s.inFlightRequests = [])
    (hmiss : mapGet s.pointsCache
      ("points:" ++ normalizeCoordinate la ++ "," ++ normalizeCoordinate lo) = none)
    (hnet : net ("https://api.weather.gov/points/" ++ normalizeCoordinate la ++ "," ++
      normalizeCoordinate lo) = .ok r) :
    requestPoints tCall tSettle net s (some (.finite la)) (some (.finite lo)) =
      (some r,
        { s with
            pointsCache :=
              mapSet s.pointsCache
                ("points:" ++ normalizeCoordinate la ++ "," ++ normalizeCoordinate lo)
                { value := r, expiresAt := tSettle + pointsStationsCacheTimeToLive }
            issuedRequests := s.issuedRequests ++
              [("points:" ++ normalizeCoordinate la ++ "," ++ normalizeCoordinate lo,
                "https://api.weather.gov/points/" ++ normalizeCoordinate la ++ "," ++
                  normalizeCoordinate lo)]
            nextPromiseId := s.nextPromiseId + 1 }) := by
  simp only [requestPoints, getCachedValue, hmiss, hfailed, hflight, awaitDedupe,
    requestWithDedupe, executeRequestStart, executeRequestSettle, hnet, setCachedValue,
    mapGet, mapSet, mapDelete, List.filter]
  simp

/-- A fresh, successful `requestForecastByUrl`. -/
theorem requestForecastByUrl_fresh (tCall tSettle : Int)
    (net : String → Except JsError JsVal) (s : ReqState) (u : String) (r : JsVal)
    (hu : ¬u = "")
    (hfailed : s.failedRequestCache = [])
    (hflight : s.inFlightRequests = [])
    (hmiss : mapGet s.forecastCache ("forecast:" ++ u) = none)
    (hnet : net u = .ok r) :
    requestForecastByUrl tCall tSettle net s u =
      (some r,
        { s with
            forecastCache :=
              mapSet s.forecastCache ("forecast:" ++ u)
                { value := r, expiresAt := tSettle + forecastCacheTimeToLive }
            issuedRequests := s.issuedRequests ++ [("forecast:" ++ u, u)]
            nextPromiseId := s.nextPromiseId + 1 }) := by
  simp only [requestForecastByUrl, if_neg hu, getCachedValue, hmiss, hfailed, hflight,
    awaitDedupe, requestWithDedupe, executeRequestStart, executeRequestSettle, hnet,
    setCachedValue, mapGet, mapSet, mapDelete, List.filter]
  simp

/-- A fresh, successful `requestObservationStations`. -/
theorem requestObservationStations_fresh (tCall tSettle : Int)
    (net : String → Except JsError JsVal) (s : ReqState) (u : String) (r : JsVal)
    (hu : ¬u = "")
    (hfailed : s.failedRequestCache = [])
    (hflight : s.inFlightRequests = [])
    (hmiss : mapGet s.observationStationsCache ("stations:" ++ u) = none)
    (hnet : net u = .ok r) :
    requestObservationStations tCall tSettle net s u =
      (some r,
        { s with
            observationStationsCache :=
              mapSet s.observationStationsCache ("stations:" ++ u)
                { value := r, expiresAt := tSettle + pointsStationsCacheTimeToLive }
            issuedRequests := s.issuedRequests ++ [("stations:" ++ u, u)]
            nextPromiseId := s.nextPromiseId + 1 }) := by
  simp only [requestObservationStations, if_neg hu, getCachedValue, hmiss, hfailed,
    hflight, awaitDedupe, requestWithDedupe, executeRequestStart, executeRequestSettle,
    hnet, setCachedValue, mapGet, mapSet, mapDelete, List.filter]
  simp

/-- Assigning entries whose keys avoid `k` leaves the lookup at `k`
unchanged. -/
theorem mapGet_jsAssign_not_mem {β : Type} (l : List (String × β)) :
    ∀ (m : List (String × β)) (k : String), k ∉ l.map Prod.fst →
      mapGet (jsAssign m l) k = mapGet m k := by
  induction l with
  | nil => intro m k _; rfl
  | cons hd tl ih =>
      intro m k hk
      obtain ⟨k1, v1⟩ := hd
      simp only [List.map_cons, List.mem_cons, not_or] at hk
      have step : jsAssign m ((k1, v1) :: tl) = jsAssign (mapSet m k1 v1) tl := rfl
      rw [step, ih (mapSet m k1 v1) k hk.2,
        mapGet_mapSet_other m k1 k v1 hk.1]

/-- When the assigned source has pairwise-distinct keys and carries `k`,
the assigned value wins the lookup. -/
theorem mapGet_jsAssign_mem {β : Type} (l : List (String × β)) :
    ∀ (m : List (String × β)) (k : String) (v : β), mapGet l k = some v →
      (l.map Prod.fst).Nodup → mapGet (jsAssign m l) k = some v := by
  induction l with
  | nil => intro m k v h _; simp [mapGet] at h
  | cons hd tl ih =>
      intro m k v h hnodup
      obtain ⟨k1, v1⟩ := hd
      simp only [List.map_cons, List.nodup_cons] at hnodup
      have step : jsAssign m ((k1, v1) :: tl) = jsAssign (mapSet m k1 v1) tl := rfl
      by_cases hk : k1 = k
      · subst hk
        simp only [mapGet, if_pos rfl] at h
        obtain rfl : v1 = v := by injection h
        rw [step, mapGet_jsAssign_not_mem tl (mapSet m k1 v1) k1 hnodup.1,
          mapGet_mapSet_self]
      · simp only [mapGet, if_neg hk] at h
        rw [step, ih (mapSet m k1 v1) k v h hnodup.2]

/-- A value of `mapSet m k v` is a value of `m` or is `v`. -/
theorem mem_mapSet {β : Type} (m : List (String × β)) (k : String) (v : β) :
    ∀ kv ∈ mapSet m k v, kv ∈ m ∨ kv = (k, v) := by
  induction m with
  | nil =>
      intro kv hkv
      simp only [mapSet, List.mem_singleton] at hkv
      exact Or.inr hkv
  | cons hd tl ih =>
      intro kv hkv
      obtain ⟨k1, v1⟩ := hd
      by_cases h : k1 = k
      · rw [mapSet, if_pos h] at hkv
        rcases List.mem_cons.1 hkv with h1 | h1
        · exact Or.inr h1
        · exact Or.inl (List.mem_cons_of_mem _ h1)
      · rw [mapSet, if_neg h] at hkv
        rcases List.mem_cons.1 hkv with h1 | h1
        · exact Or.inl (h1 ▸ List.mem_cons_self _ _)
        · rcases ih kv h1 with h2 | h2
          · exact Or.inl (List.mem_cons_of_mem _ h2)
          · exact Or.inr h2

/-- A value of `jsAssign m l` is a value of `m` or of `l`. -/
theorem mem_jsAssign {β : Type} (l : List (String × β)) :
    ∀ (m : List (String × β)) (kv : String × β), kv ∈ jsAssign m l →
      kv ∈ m ∨ kv ∈ l := by
  induction l with
  | nil => intro m kv h; exact Or.inl h
  | cons hd tl ih =>
      intro m kv h
      obtain ⟨k1, v1⟩ := hd
      have step : jsAssign m ((k1, v1) :: tl) = jsAssign (mapSet m k1 v1) tl := rfl
      rw [step] at h
      rcases ih (mapSet m k1 v1) kv h with h1 | h1
      · rcases mem_mapSet m k1 v1 kv h1 with h2 | h2
        · exact Or.inl h2
        · right; simp [h2]
      · right; simp [h1]

/-- Source `mapSet` preserves distinctness of keys. -/
theorem nodup_keys_mapSet {β : Type} (m : List (String × β)) (k : String) (v : β)
    (h : (m.map Prod.fst).Nodup) : ((mapSet m k v).map Prod.fst).Nodup := by
  induction m with
  | nil => simp [mapSet]
  | cons hd tl ih =>
      obtain ⟨k1, v1⟩ := hd
      simp only [List.map_cons, List.nodup_cons] at h
      by_cases hk : k1 = k
      · have hred : mapSet ((k1, v1) :: tl) k v = (k, v) :: tl := by
          simp [mapSet, hk]
        rw [hred, ← hk]
        simpa using h
      · have hset : ((mapSet tl k v).map Prod.fst).Nodup := ih h.2
        have hmem : k1 ∉ (mapSet tl k v).map Prod.fst := by
          intro hmem
          obtain ⟨kv, hkv, hfst⟩ := List.mem_map.1 hmem
          rcases mem_mapSet tl k v kv hkv with h1 | h1
          · exact h.1 (hfst ▸ List.mem_map_of_mem Prod.fst h1)
          · rw [h1] at hfst
            exact hk hfst.symm
        simp only [mapSet, if_neg hk, List.map_cons, List.nodup_cons]
        exact ⟨hmem, hset⟩

/-- Source `jsAssign` preserves distinctness of keys of the target. -/
theorem nodup_keys_jsAssign {β : Type} (l : List (String × β)) :
    ∀ m : List (String × β), (m.map Prod.fst).Nodup →
      ((jsAssign m l).map Prod.fst).Nodup := by
  induction l with
  | nil => intro m h; exact h
  | cons hd tl ih =>
      intro m h
      obtain ⟨k1, v1⟩ := hd
      exact ih (mapSet m k1 v1) (nodup_keys_mapSet m k1 v1 h)

/-- A scalar (non-object, non-array) JavaScript value. -/
def isScalar : JsVal → Bool
  | .obj _ => false
  | .arr _ => false
  | _ => true

/-- On a flat object — every value scalar — the derived leaves are the
top-level entries themselves, keys unchanged and values converted. -/
theorem specLeavesE_flat (fields : List (String × JsVal))
    (h : ∀ kv ∈ fields, isScalar kv.2 = true) :
    specLeavesE "" fields = fields.map fun kv => (kv.1, scalarOrEmpty kv.2) := by
  induction fields with
  | nil => simp [specLeavesE]
  | cons hd tl ih =>
      obtain ⟨k, v⟩ := hd
      have hv : isScalar v = true := h (k, v) (List.mem_cons_self _ _)
      have htl : ∀ kv ∈ tl, isScalar kv.2 = true :=
        fun kv hkv => h kv (List.mem_cons_of_mem _ hkv)
      match v, hv with
      | JsVal.str s, _ => simp [specLeavesE, ih htl]
      | JsVal.num q, _ => simp [specLeavesE, ih htl]
      | JsVal.boolean b, _ => simp [specLeavesE, ih htl]
      | JsVal.null, _ => simp [specLeavesE, ih htl]
      | JsVal.undef, _ => simp [specLeavesE, ih htl]

/-- Lookup commutes with a value-only map. -/
theorem mapGet_map_value {β γ : Type} (g : β → γ) (l : List (String × β)) (k : String) :
    mapGet (l.map fun kv => (kv.1, g kv.2)) k = (mapGet l k).map g := by
  induction l with
  | nil => simp [mapGet]
  | cons hd tl ih =>
      obtain ⟨k1, v1⟩ := hd
      by_cases h : k1 = k <;> simp [mapGet, h, ih]

/-- Flattening a flat object with pairwise-distinct keys converts the
values in place: the map of the flat result at any key is the converted
original value. -/
theorem processProperties_flat (fields : List (String × JsVal))
    (hflat : ∀ kv ∈ fields, isScalar kv.2 = true)
    (hnodup : (fields.map Prod.fst).Nodup) (k : String) :
    mapGet (processProperties fields) k = (mapGet fields k).map scalarOrEmpty := by
  have hleaves := specLeavesE_flat fields hflat
  have hkeys : ((specLeavesE "" fields).map Prod.fst).Nodup := by
    rw [hleaves]
    simpa [Function.comp] using hnodup
  have heq : processProperties fields = specLeavesE "" fields := by
    rw [processProperties, procEntries_spec [] "" fields,
      jsAssign_of_nodup (specLeavesE "" fields) [] (fun kv _ => rfl) hkeys]
    simp
  rw [heq, hleaves, mapGet_map_value]

/-- A fresh, successful `requestForecast`: the grid point resolves to a
points response carrying a truthy forecast URL, and that URL resolves to
the forecast response.  Both successes are cached; two network calls are
issued. -/
theorem requestForecast_fresh (tCall tSettle : Int)
    (net : String → Except JsError JsVal) (s : ReqState) (la lo : ℚ)
    (pointsResp fcResp : JsVal) (fUrl : String)
    (hfailed : s.failedRequestCache = [])
    (hflight : s.inFlightRequests = [])
    (hmissP : mapGet s.pointsCache
      ("points:" ++ normalizeCoordinate la ++ "," ++ normalizeCoordinate lo) = none)
    (hmissF : mapGet s.forecastCache ("forecast:" ++ fUrl) = none)
    (hnetP : net ("https://api.weather.gov/points/" ++ normalizeCoordinate la ++ "," ++
      normalizeCoordinate lo) = .ok pointsResp)
    (hfurl : chainField (chainField (chainField (some pointsResp) "data") "properties")
      "forecast" = some (JsVal.str fUrl))
    (hfu : ¬fUrl = "")
    (hnetF : net fUrl = .ok fcResp) :
    requestForecast tCall tSettle net s (some (.finite la)) (some (.finite lo)) =
      (some fcResp,
        { s with
            pointsCache :=
              mapSet s.pointsCache
                ("points:" ++ normalizeCoordinate la ++ "," ++ normalizeCoordinate lo)
                { value := pointsResp,
                  expiresAt := tSettle + pointsStationsCacheTimeToLive }
            forecastCache :=
              mapSet s.forecastCache ("forecast:" ++ fUrl)
                { value := fcResp, expiresAt := tSettle + forecastCacheTimeToLive }
            issuedRequests := s.issuedRequests ++
              [("points:" ++ normalizeCoordinate la ++ "," ++ normalizeCoordinate lo,
                "https://api.weather.gov/points/" ++ normalizeCoordinate la ++ "," ++
                  normalizeCoordinate lo),
               ("forecast:" ++ fUrl, fUrl)]
            nextPromiseId := s.nextPromiseId + 2 }) := by
  have hpts := requestPoints_fresh tCall tSettle net s la lo pointsResp hfailed hflight
    hmissP hnetP
  have hfb := requestForecastByUrl_fresh tCall tSettle net
    { s with
        pointsCache :=
          mapSet s.pointsCache
            ("points:" ++ normalizeCoordinate la ++ "," ++ normalizeCoordinate lo)
            { value := pointsResp, expiresAt := tSettle + pointsStationsCacheTimeToLive }
        issuedRequests := s.issuedRequests ++
          [("points:" ++ normalizeCoordinate la ++ "," ++ normalizeCoordinate lo,
            "https://api.weather.gov/points/" ++ normalizeCoordinate la ++ "," ++
              normalizeCoordinate lo)]
        nextPromiseId := s.nextPromiseId + 1 }
    fUrl fcResp hfu hfailed hflight hmissF hnetF
  rw [requestForecast, hpts]
  simp only [hfurl]
  have htruthy : jsTruthy (JsVal.str fUrl) = true := by simp [jsTruthy, hfu]
  simp only [htruthy, if_pos]
  rw [show jsString (JsVal.str fUrl) = fUrl from rfl, hfb]
  simp [List.append_assoc]

/-- A station feature as returned in the stations feature collection:
original properties plus `[longitude, latitude]` geometry coordinates. -/
def mkStationFeature (props : List (String × JsVal)) (lo la : ℚ) : JsVal :=
  JsVal.obj
    [("properties", JsVal.obj props),
     ("geometry", JsVal.obj [("coordinates", JsVal.arr [JsVal.num lo, JsVal.num la])])]

/-- C5: when a station feature's fan-out branch settles successfully, the
feature's properties are exactly the flattening of the spread-merge of the
original feature properties, then the observation response properties, then
the forecast response properties, in that order; and — last spread wins —
whenever a key of flat inputs collides, the looked-up flat value is the
observation's (converted) value rather than the original's (the forecast
overriding both in turn when it also carries the key). -/
theorem station_branch_merge_precedence (tCall tSettle : Int)
    (net : String → Except JsError JsVal) (s : ReqState)
    (props : List (String × JsVal)) (lo la : ℚ) (sid : String)
    (obsResp pointsResp fcResp : JsVal) (fUrl : String)
    (hsidv : mapGet props "stationIdentifier" = some (JsVal.str sid))
    (hsid : ¬sid = "")
    (hfailed : s.failedRequestCache = [])
    (hflight : s.inFlightRequests = [])
    (hmissO : mapGet s.latestObservationsCache ("observations:" ++ sid) = none)
    (hmissP : mapGet s.pointsCache
      ("points:" ++ normalizeCoordinate la ++ "," ++ normalizeCoordinate lo) = none)
    (hmissF : mapGet s.forecastCache ("forecast:" ++ fUrl) = none)
    (hnetO : net ("https://api.weather.gov/stations/" ++ sid ++
      "/observations/latest") = .ok obsResp)
    (hnetP : net ("https://api.weather.gov/points/" ++ normalizeCoordinate la ++ "," ++
      normalizeCoordinate lo) = .ok pointsResp)
    (hfurl : chainField (chainField (chainField (some pointsResp) "data") "properties")
      "forecast" = some (JsVal.str fUrl))
    (hfu : ¬fUrl = "")
    (hnetF : net fUrl = .ok fcResp) :
    (processStationFeature tCall tSettle net s (mkStationFeature props lo la)
        false).1 =
      setFeatureProperties (mkStationFeature props lo la)
        (processProperties
          (spreadMerge (spreadMerge props (dataProperties (some obsResp)))
            (dataProperties (some fcResp)))) ∧
    (∀ (k : String) (va vb : JsVal),
      (∀ kv ∈ props, isScalar kv.2 = true) →
      (∀ kv ∈ dataProperties (some obsResp), isScalar kv.2 = true) →
      (∀ kv ∈ dataProperties (some fcResp), isScalar kv.2 = true) →
      (props.map Prod.fst).Nodup →
      ((dataProperties (some obsResp)).map Prod.fst).Nodup →
      mapGet props k = some va →
      mapGet (dataProperties (some obsResp)) k = some vb →
      k ∉ (dataProperties (some fcResp)).map Prod.fst →
      mapGet (processProperties
          (spreadMerge (spreadMerge props (dataProperties (some obsResp)))
            (dataProperties (some fcResp)))) k = some (scalarOrEmpty vb)) := by
  constructor
  · have hfsid : featureStationIdentifier (mkStationFeature props lo la) =
        some (JsVal.str sid) := by
      simp [featureStationIdentifier, chainField, mkStationFeature, mapGet, hsidv]
    have hcoords : featureCoordinates (mkStationFeature props lo la) =
        [JsVal.num lo, JsVal.num la] := by
      simp [featureCoordinates, chainField, mkStationFeature, mapGet]
    have hprops : featureProperties (mkStationFeature props lo la) = props := by
      simp [featureProperties, chainField, mkStationFeature, mapGet]
    have hobs := requestLatestObservations_fresh tCall tSettle net s sid obsResp hsid
      hfailed hflight hmissO hnetO
    set s1 : ReqState :=
      { s with
          latestObservationsCache :=
            mapSet s.latestObservationsCache ("observations:" ++ sid)
              { value := obsResp, expiresAt := tSettle + observationsCacheTimeToLive }
          issuedRequests := s.issuedRequests ++
            [("observations:" ++ sid,
              "https://api.weather.gov/stations/" ++ sid ++ "/observations/latest")]
          nextPromiseId := s.nextPromiseId + 1 } with hs1
    have hfc := requestForecast_fresh tCall tSettle net s1 la lo pointsResp fcResp fUrl
      (by rw [hs1]; exact hfailed) (by rw [hs1]; exact hflight)
      (by rw [hs1]; exact hmissP) (by rw [hs1]; exact hmissF)
      hnetP hfurl hfu hnetF
    rw [processStationFeature]
    simp only [Bool.false_eq_true, if_false, hfsid]
    have htruthy : jsTruthy (JsVal.str sid) = true := by simp [jsTruthy, hsid]
    simp only [htruthy, if_pos, hcoords, hprops]
    simp only [List.get?, jsvalFiniteQ, jsString, hobs, hfc]
  · intro k va vb hflatA hflatB hflatC hnodA hnodB hA hB hCk
    have hM : mapGet (spreadMerge (spreadMerge props (dataProperties (some obsResp)))
        (dataProperties (some fcResp))) k = some vb := by
      rw [spreadMerge, spreadMerge,
        mapGet_jsAssign_not_mem (dataProperties (some fcResp)) _ k hCk,
        mapGet_jsAssign_mem (dataProperties (some obsResp)) props k vb hB hnodB]
    have hflatM : ∀ kv ∈ spreadMerge (spreadMerge props (dataProperties (some obsResp)))
        (dataProperties (some fcResp)), isScalar kv.2 = true := by
      intro kv hkv
      rcases mem_jsAssign (dataProperties (some fcResp)) _ kv hkv with h1 | h1
      · rcases mem_jsAssign (dataProperties (some obsResp)) props kv h1 with h2 | h2
        · exact hflatA kv h2
        · exact hflatB kv h2
      · exact hflatC kv h1
    have hnodM : ((spreadMerge (spreadMerge props (dataProperties (some obsResp)))
        (dataProperties (some fcResp))).map Prod.fst).Nodup := by
      rw [spreadMerge, spreadMerge]
      exact nodup_keys_jsAssign _ _ (nodup_keys_jsAssign _ props hnodA)
    rw [processProperties_flat _ hflatM hnodM k, hM]
    rfl

/-- Sample original station properties for the merge-order scenario. -/
def sampleStationProps : List (String × JsVal) :=
  [("name", JsVal.str "Portland"), ("stationIdentifier", JsVal.str "KPDX"),
   ("elevation", JsVal.str "10")]

/-- Sample latest-observations response (elevation collides with the
original feature properties). -/
def sampleObsResp : JsVal :=
  JsVal.obj [("data", JsVal.obj [("properties",
    JsVal.obj [("elevation", JsVal.str "20"),
      ("textDescription", JsVal.str "Cloudy")])])]

/-- Sample grid-points response carrying the forecast URL. -/
def samplePointsResp : JsVal :=
  JsVal.obj [("data", JsVal.obj [("properties",
    JsVal.obj [("forecast", JsVal.str "https://forecast.test")])])]

/-- Sample forecast response. -/
def sampleFcResp : JsVal :=
  JsVal.obj [("data", JsVal.obj [("properties",
    JsVal.obj [("windSpeed", JsVal.str "5 mph")])])]

/-- The network oracle of the merge-order scenario. -/
def sampleNet (u : String) : Except JsError JsVal :=
  if u = "https://api.weather.gov/stations/KPDX/observations/latest" then
    .ok sampleObsResp
  else if u = "https://forecast.test" then .ok sampleFcResp
  else .ok samplePointsResp

/-- Witness for `station_branch_merge_precedence` at the Portland, OR
scenario inputs. -/
theorem station_branch_merge_precedence_witness :
    mapGet sampleStationProps "stationIdentifier" = some (JsVal.str "KPDX") ∧
    (processStationFeature 0 0 sampleNet initialReqState
        (mkStationFeature sampleStationProps (mkRat (-1226765) 10000)
          (mkRat 455231 10000)) false).1 =
      setFeatureProperties
        (mkStationFeature sampleStationProps (mkRat (-1226765) 10000)
          (mkRat 455231 10000))
        (processProperties
          (spreadMerge (spreadMerge sampleStationProps
            (dataProperties (some sampleObsResp)))
            (dataProperties (some sampleFcResp)))) := by
  refine ⟨rfl, ?_⟩
  exact (station_branch_merge_precedence 0 0 sampleNet initialReqState
    sampleStationProps (mkRat (-1226765) 10000) (mkRat 455231 10000) "KPDX"
    sampleObsResp samplePointsResp sampleFcResp "https://forecast.test"
    rfl (by decide) rfl rfl rfl rfl rfl rfl rfl rfl (by decide) rfl).1

theorem string_append_left_cancel {s a b : String} (h : s ++ a = s ++ b) : a = b := by
  have hd : s.data ++ a.data = s.data ++ b.data := by
    rw [← String.data_append, ← String.data_append, h]
  exact String.ext (List.append_cancel_left hd)

/-- A station feature with properties only (no geometry: its branch's
forecast side resolves to `null`, exactly as for a station without finite
coordinates). -/
def mkObsFeature (props : List (String × JsVal)) : JsVal :=
  JsVal.obj [("properties", JsVal.obj props)]

/-- The successful merged outcome of such a feature's branch for the
observation response `r`. -/
def mergedStationFeature (props : List (String × JsVal)) (r : JsVal) : JsVal :=
  setFeatureProperties (mkObsFeature props)
    (processProperties
      (spreadMerge (spreadMerge props (dataProperties (some r))) (dataProperties none)))

/-- The branch of an observation-only feature with a fresh cache and a
successful network call: the feature's properties become the flattened
merge, the response is cached, one request is issued. -/
theorem processStationFeature_obs_step (tCall tSettle : Int)
    (net : String → Except JsError JsVal) (s : ReqState) (sid : String)
    (props : List (String × JsVal)) (r : JsVal)
    (hsidv : mapGet props "stationIdentifier" = some (JsVal.str sid))
    (hsid : ¬sid = "")
    (hfailed : s.failedRequestCache = [])
    (hflight : s.inFlightRequests = [])
    (hmiss : mapGet s.latestObservationsCache ("observations:" ++ sid) = none)
    (hnet : net ("https://api.weather.gov/stations/" ++ sid ++
      "/observations/latest") = .ok r) :
    processStationFeature tCall tSettle net s (mkObsFeature props) false =
      (mergedStationFeature props r,
        { s with
            latestObservationsCache :=
              mapSet s.latestObservationsCache ("observations:" ++ sid)
                { value := r, expiresAt := tSettle + observationsCacheTimeToLive }
            issuedRequests := s.issuedRequests ++
              [("observations:" ++ sid,
                "https://api.weather.gov/stations/" ++ sid ++ "/observations/latest")]
            nextPromiseId := s.nextPromiseId + 1 }) := by
  have hfsid : featureStationIdentifier (mkObsFeature props) =
      some (JsVal.str sid) := by
    simp [featureStationIdentifier, chainField, mkObsFeature, mapGet, hsidv]
  have hcoords : featureCoordinates (mkObsFeature props) = [] := by
    simp [featureCoordinates, chainField, mkObsFeature, mapGet]
  have hprops : featureProperties (mkObsFeature props) = props := by
    simp [featureProperties, chainField, mkObsFeature, mapGet]
  have hobs := requestLatestObservations_fresh tCall tSettle net s sid r hsid
    hfailed hflight hmiss hnet
  rw [processStationFeature]
  simp only [Bool.false_eq_true, if_false, hfsid]
  have htruthy : jsTruthy (JsVal.str sid) = true := by simp [jsTruthy, hsid]
  simp only [htruthy, if_pos, hcoords, hprops]
  simp only [List.get?, jsvalFiniteQ, jsString, hobs]
  rfl

/-- The feature list the fan-out is expected to publish when branch `i`
(0-based, counted from `j0`) throws: every sibling carries its merged
properties, the failing feature is untouched. -/
def expectedFeatures (resp : String → JsVal) (i : Nat) :
    Nat → List (String × List (String × JsVal)) → List JsVal
  | _, [] => []
  | j, (sid, props) :: rest =>
      (if j = i then mkObsFeature props else mergedStationFeature props (resp sid)) ::
        expectedFeatures resp i (j + 1) rest

theorem expectedFeatures_length (resp : String → JsVal) (i : Nat) :
    ∀ (items : List (String × List (String × JsVal))) (j : Nat),
      (expectedFeatures resp i j items).length = items.length := by
  intro items
  induction items with
  | nil => intro j; rfl
  | cons hd tl ih =>
      intro j
      obtain ⟨sid, props⟩ := hd
      simp [expectedFeatures, ih (j + 1)]

theorem expectedFeatures_get (resp : String → JsVal) (i : Nat) :
    ∀ (items : List (String × List (String × JsVal))) (j0 j : Nat)
      (sp : String × List (String × JsVal)), items.get? j = some sp →
      (expectedFeatures resp i j0 items).get? j =
        some (if j0 + j = i then mkObsFeature sp.2
          else mergedStationFeature sp.2 (resp sp.1)) := by
  intro items
  induction items with
  | nil => intro j0 j sp h; simp [List.get?] at h
  | cons hd tl ih =>
      intro j0 j sp h
      obtain ⟨sid, props⟩ := hd
      match j with
      | 0 =>
          simp only [List.get?] at h
          obtain rfl : (sid, props) = sp := by injection h
          simp [expectedFeatures, List.get?]
      | Nat.succ m =>
          simp only [List.get?] at h
          have := ih (j0 + 1) m sp h
          simp only [expectedFeatures, List.get?, this]
          have harith : j0 + 1 + m = j0 + (m + 1) := by omega
          rw [harith]

/-- The fan-out over observation-only features, one branch throwing, the
others succeeding, produces exactly the expected feature list. -/
theorem processStationFeaturesFrom_expected (tCall tSettle : Int)
    (net : String → Except JsError JsVal) (resp : String → JsVal) (i : Nat) :
    ∀ (items : List (String × List (String × JsVal))) (j : Nat) (s : ReqState),
      (∀ sp ∈ items, mapGet sp.2 "stationIdentifier" = some (JsVal.str sp.1)) →
      (∀ sp ∈ items, ¬sp.1 = "") →
      (items.map Prod.fst).Nodup →
      (∀ sp ∈ items, net ("https://api.weather.gov/stations/" ++ sp.1 ++
        "/observations/latest") = .ok (resp sp.1)) →
      s.failedRequestCache = [] →
      s.inFlightRequests = [] →
      (∀ sp ∈ items, mapGet s.latestObservationsCache
        ("observations:" ++ sp.1) = none) →
      (processStationFeaturesFrom tCall tSettle net s j (fun j2 => j2 == i)
        (items.map fun sp => mkObsFeature sp.2)).1 = expectedFeatures resp i j items := by
  intro items
  induction items with
  | nil => intro j s _ _ _ _ _ _ _; rfl
  | cons hd tl ih =>
      intro j s hsidv hsid hnodup hnet hfailed hflight hmiss
      obtain ⟨sid, props⟩ := hd
      have hhead := List.mem_cons_self (sid, props) tl
      have hnod : sid ∉ tl.map Prod.fst ∧ (tl.map Prod.fst).Nodup := by
        rw [List.map_cons, List.nodup_cons] at hnodup
        exact hnodup
      by_cases hj : j = i
      · have hbeq : (j == i) = true := by simp [hj]
        have hstep : processStationFeature tCall tSettle net s (mkObsFeature props)
            (j == i) =
            (mkObsFeature props,
              { s with errorLog :=
                  s.errorLog ++ ["Failed to process data for feature"] }) := by
          rw [hbeq]; rfl
        have htail := ih (j + 1)
          { s with errorLog := s.errorLog ++ ["Failed to process data for feature"] }
          (fun sp hsp => hsidv sp (List.mem_cons_of_mem _ hsp))
          (fun sp hsp => hsid sp (List.mem_cons_of_mem _ hsp))
          hnod.2
          (fun sp hsp => hnet sp (List.mem_cons_of_mem _ hsp))
          hfailed hflight
          (fun sp hsp => hmiss sp (List.mem_cons_of_mem _ hsp))
        simp only [List.map_cons, processStationFeaturesFrom, hstep, htail,
          expectedFeatures, if_pos hj]
      · have hbeq : (j == i) = false := by simp [hj]
        have hstep := processStationFeature_obs_step tCall tSettle net s sid props
          (resp sid) (hsidv _ hhead) (hsid _ hhead) hfailed hflight (hmiss _ hhead)
          (hnet _ hhead)
        have hsidtl : sid ∉ tl.map Prod.fst := hnod.1
        have hmiss2 : ∀ sp ∈ tl,
            mapGet (mapSet s.latestObservationsCache ("observations:" ++ sid)
              { value := resp sid, expiresAt := tSettle + observationsCacheTimeToLive })
              ("observations:" ++ sp.1) = none := by
          intro sp hsp
          have hne : sp.1 ≠ sid := by
            intro he
            exact hsidtl (he ▸ List.mem_map_of_mem Prod.fst hsp)
          have hkey : ("observations:" ++ sp.1 : String) ≠ "observations:" ++ sid := by
            intro he
            exact hne (string_append_left_cancel he)
          rw [mapGet_mapSet_other _ _ _ _ hkey]
          exact hmiss sp (List.mem_cons_of_mem _ hsp)
        have htail := ih (j + 1)
          { s with
              latestObservationsCache :=
                mapSet s.latestObservationsCache ("observations:" ++ sid)
                  { value := resp sid,
                    expiresAt := tSettle + observationsCacheTimeToLive }
              issuedRequests := s.issuedRequests ++
                [("observations:" ++ sid,
                  "https://api.weather.gov/stations/" ++ sid ++ "/observations/latest")]
              nextPromiseId := s.nextPromiseId + 1 }
          (fun sp hsp => hsidv sp (List.mem_cons_of_mem _ hsp))
          (fun sp hsp => hsid sp (List.mem_cons_of_mem _ hsp))
          hnod.2
          (fun sp hsp => hnet sp (List.mem_cons_of_mem _ hsp))
          hfailed hflight hmiss2
        simp only [List.map_cons, processStationFeaturesFrom, hbeq, hstep, htail,
          expectedFeatures, if_neg hj]

/-- C9: when exactly one station's per-feature branch throws during the
fan-out, the failure is caught for that feature alone: every sibling branch
completes and the published collection carries correct merged data for all
other stations, the failing station's feature is left untouched, the
collection keeps its length, and nothing propagates past the fan-out (the
run is a total function of the batch). -/
theorem partial_failure_isolation (tCall tSettle : Int)
    (net : String → Except JsError JsVal) (resp : String → JsVal)
    (items : List (String × List (String × JsVal))) (i : Nat)
    (hsidv : ∀ sp ∈ items, mapGet sp.2 "stationIdentifier" = some (JsVal.str sp.1))
    (hsid : ∀ sp ∈ items, ¬sp.1 = "")
    (hnodup : (items.map Prod.fst).Nodup)
    (hnet : ∀ sp ∈ items, net ("https://api.weather.gov/stations/" ++ sp.1 ++
      "/observations/latest") = .ok (resp sp.1)) :
    (processStationFeatures tCall tSettle net initialReqState (fun j => j == i)
        (items.map fun sp => mkObsFeature sp.2)).1 =
      expectedFeatures resp i 0 items ∧
    (expectedFeatures resp i 0 items).length = items.length ∧
    (∀ sp, items.get? i = some sp →
      (expectedFeatures resp i 0 items).get? i = some (mkObsFeature sp.2)) ∧
    (∀ j sp, items.get? j = some sp → j ≠ i →
      (expectedFeatures resp i 0 items).get? j =
        some (mergedStationFeature sp.2 (resp sp.1))) := by
  refine ⟨?_, expectedFeatures_length resp i items 0, ?_, ?_⟩
  · exact processStationFeaturesFrom_expected tCall tSettle net resp i items 0
      initialReqState hsidv hsid hnodup hnet rfl rfl (fun sp _ => rfl)
  · intro sp hsp
    rw [expectedFeatures_get resp i items 0 i sp hsp]
    simp
  · intro j sp hsp hji
    rw [expectedFeatures_get resp i items 0 j sp hsp]
    simp [hji]

/-- A concrete two-station batch for the partial-failure scenario. -/
def sampleBatch : List (String × List (String × JsVal)) :=
  [("KA", [("stationIdentifier", JsVal.str "KA"), ("name", JsVal.str "Alpha")]),
   ("KB", [("stationIdentifier", JsVal.str "KB"), ("name", JsVal.str "Beta")])]

/-- Its per-station observation responses. -/
def sampleBatchResp (sid : String) : JsVal :=
  JsVal.obj [("data", JsVal.obj [("properties",
    JsVal.obj [("textDescription", JsVal.str sid)])])]

/-- Its network oracle. -/
def sampleBatchNet (u : String) : Except JsError JsVal :=
  if u = "https://api.weather.gov/stations/KA/observations/latest" then
    .ok (sampleBatchResp "KA")
  else .ok (sampleBatchResp "KB")

/-- Witness for `partial_failure_isolation`: in a two-station batch whose
first branch throws, the published list is the untouched first feature
followed by the merged second feature. -/
theorem partial_failure_isolation_witness :
    (sampleBatch.map Prod.fst).Nodup ∧
    (processStationFeatures 0 0 sampleBatchNet initialReqState (fun j => j == 0)
        (sampleBatch.map fun sp => mkObsFeature sp.2)).1 =
      expectedFeatures sampleBatchResp 0 0 sampleBatch := by
  refine ⟨by decide, ?_⟩
  exact (partial_failure_isolation 0 0 sampleBatchNet sampleBatchResp sampleBatch 0
    (by simp [sampleBatch, mapGet]) (by simp [sampleBatch]) (by decide)
    (by simp [sampleBatch, sampleBatchNet])).1

/-! ## Observation-stations refresh orchestration
(`createObservationStationsLayer`, part_004 lines 251-474) -/

/-- The orchestrator's slice of the module-level `state`: the request state
plus the last successfully published and currently in-flight
center-coordinate keys. -/
structure OrchState where
  reqState : ReqState
  lastObservationStationsKey : String
  inFlightObservationStationsKey : String

/-- The initial orchestrator state. -/
def initialOrchState : OrchState :=
  { reqState := initialReqState
    lastObservationStationsKey := ""
    inFlightObservationStationsKey := "" }

/-- The `try` body of `createObservationStationsLayer` (part_004 lines
287-468): resolve the grid point, read
`nwsPoints?.data?.properties?.observationStations` (a falsy URL is a silent
no-op), fetch the station list, and — when `?.data?.features` is a feature
array — run the per-feature fan-out and record the key as the last
published one (the layer/renderer construction is rendering glue with no
bearing on the request layer and is outside this model; only `request(...)`
calls are journaled, the icon `fetch` probes are a separate channel). -/
def createObservationStationsLayerBody (tCall tSettle : Int)
    (net : String → Except JsError JsVal) (st : OrchState) (key : String)
    (la lo : ℚ) (throwsAt : Nat → Bool) : OrchState :=
  match requestPoints tCall tSettle net st.reqState (some (.finite la))
    (some (.finite lo)) with
  | (nwsPoints, rs1) =>
      let st1 : OrchState := { st with reqState := rs1 }
      match chainField (chainField (chainField nwsPoints "data") "properties")
        "observationStations" with
      | some urlVal =>
          if jsTruthy urlVal then
            match requestObservationStations tCall tSettle net st1.reqState
              (jsString urlVal) with
            | (observationStations, rs2) =>
                let st2 : OrchState := { st1 with reqState := rs2 }
                match chainField (chainField observationStations "data") "features" with
                | some (JsVal.arr features) =>
                    match processStationFeatures tCall tSettle net st2.reqState
                      throwsAt features with
                    | (_, rs3) =>
                        { st2 with
                            reqState := rs3
                            lastObservationStationsKey := key }
                | _ => st2
          else st1
      | none => st1

/-- Source `createObservationStationsLayer` on a stationary view change (part_004
lines 252-474): validate the center, form the normalized coordinate key,
return silently when it matches the last published or the in-flight key,
otherwise mark the key in flight, run the body, and clear the in-flight key
in the `finally` block (only if still ours). -/
def createObservationStationsLayer (tCall tSettle : Int)
    (net : String → Except JsError JsVal) (st : OrchState)
    (center : Option (Option JsNumber × Option JsNumber)) (throwsAt : Nat → Bool) :
    OrchState :=
  match center with
  | none =>
      let rs := st.reqState
      { st with reqState :=
          { rs with errorLog := rs.errorLog ++ ["View center is not defined."] } }
  | some (clat, clon) =>
      match clat, clon with
      | some (JsNumber.finite la), some (JsNumber.finite lo) =>
          let observationStationsKey :=
            normalizeCoordinate la ++ "," ++ normalizeCoordinate lo
          if observationStationsKey = st.lastObservationStationsKey ∨
              observationStationsKey = st.inFlightObservationStationsKey then st
          else
            let st1 : OrchState :=
              { st with inFlightObservationStationsKey := observationStationsKey }
            let st2 := createObservationStationsLayerBody tCall tSettle net st1
              observationStationsKey la lo throwsAt
            if st2.inFlightObservationStationsKey = observationStationsKey then
              { st2 with inFlightObservationStationsKey := "" }
            else st2
      | _, _ =>
          let rs := st.reqState
          { st with reqState :=
              { rs with errorLog :=
                  rs.errorLog ++ ["View center coordinates are invalid."] } }

/-- The Portland, OR stationary-event center used by the C8 scenarios. -/
def portlandCenter : Option (Option JsNumber × Option JsNumber) :=
  some (some (.finite (mkRat 455231 10000)), some (.finite (mkRat (-1226765) 10000)))

/-- A network that always fails transiently. -/
def alwaysFailNet (_u : String) : Except JsError JsVal :=
  .error timeoutJsError

/-- C8 counterexample: two consecutive stationary events with the same
coordinate key where the second nevertheless issues a new upstream
request.  The first event's grid-point request fails, so nothing is
published and the key is never recorded as last-published; its 30-second
failure marker has expired by the second event, which therefore passes the
key guard and issues a fresh `/points/` request — refuting "if the
coordinate key is unchanged between two consecutive stationary events, the
second event issues zero new upstream requests". -/
theorem stationary_same_key_retries_counterexample :
    (createObservationStationsLayer 0 0 alwaysFailNet initialOrchState
      portlandCenter (fun _ => false)).reqState.issuedRequests.length = 1 ∧
    (createObservationStationsLayer 30000 30000 alwaysFailNet
      (createObservationStationsLayer 0 0 alwaysFailNet initialOrchState
        portlandCenter (fun _ => false))
      portlandCenter (fun _ => false)).reqState.issuedRequests.length = 2 := by
  exact ⟨rfl, rfl⟩

/-- C8 amended: a refresh starts only when the normalized center key
differs from both the last successfully published key and the key in
flight — an event whose key matches either returns with the state (and so
the issued-request journal) unchanged; consequently, when the first event
for a key was published successfully (it recorded the key as last
published), a second stationary event with the same key issues zero new
upstream requests.  When the first refresh failed before publishing, the
key is not recorded and the second event may retry. -/
theorem stationary_key_guard (tCall tSettle : Int)
    (net : String → Except JsError JsVal) (st : OrchState) (la lo : ℚ)
    (throwsAt : Nat → Bool) :
    (normalizeCoordinate la ++ "," ++ normalizeCoordinate lo =
        st.lastObservationStationsKey ∨
      normalizeCoordinate la ++ "," ++ normalizeCoordinate lo =
        st.inFlightObservationStationsKey →
      createObservationStationsLayer tCall tSettle net st
        (some (some (.finite la), some (.finite lo))) throwsAt = st) ∧
    (∀ (tc2 ts2 : Int) (net2 : String → Except JsError JsVal)
        (thr2 : Nat → Bool),
      (createObservationStationsLayer tCall tSettle net st
          (some (some (.finite la), some (.finite lo)))
          throwsAt).lastObservationStationsKey =
        normalizeCoordinate la ++ "," ++ normalizeCoordinate lo →
      createObservationStationsLayer tc2 ts2 net2
          (createObservationStationsLayer tCall tSettle net st
            (some (some (.finite la), some (.finite lo))) throwsAt)
          (some (some (.finite la), some (.finite lo))) thr2 =
        createObservationStationsLayer tCall tSettle net st
          (some (some (.finite la), some (.finite lo))) throwsAt) := by
  have hguard : ∀ (tc ts : Int) (netx : String → Except JsError JsVal)
      (sx : OrchState) (thrx : Nat → Bool),
      normalizeCoordinate la ++ "," ++ normalizeCoordinate lo =
          sx.lastObservationStationsKey ∨
        normalizeCoordinate la ++ "," ++ normalizeCoordinate lo =
          sx.inFlightObservationStationsKey →
      createObservationStationsLayer tc ts netx sx
        (some (some (.finite la), some (.finite lo))) thrx = sx := by
    intro tc ts netx sx thrx h
    simp only [createObservationStationsLayer]
    rw [if_pos h]
  exact ⟨hguard tCall tSettle net st throwsAt,
    fun tc2 ts2 net2 thr2 hlast =>
      hguard tc2 ts2 net2 _ thr2 (Or.inl hlast.symm)⟩

/-- Witness for `stationary_key_guard`: a state that already published the
Portland key absorbs a same-key stationary event with no state change. -/
theorem stationary_key_guard_witness :
    (normalizeCoordinate (mkRat 455231 10000) ++ "," ++
        normalizeCoordinate (mkRat (-1226765) 10000) =
      ({ initialOrchState with
          lastObservationStationsKey :=
            normalizeCoordinate (mkRat 455231 10000) ++ "," ++
              normalizeCoordinate (mkRat (-1226765) 10000) } :
        OrchState).lastObservationStationsKey) ∧
    createObservationStationsLayer 0 0 alwaysFailNet
        { initialOrchState with
            lastObservationStationsKey :=
              normalizeCoordinate (mkRat 455231 10000) ++ "," ++
                normalizeCoordinate (mkRat (-1226765) 10000) }
        (some (some (.finite (mkRat 455231 10000)),
          some (.finite (mkRat (-1226765) 10000)))) (fun _ => false) =
      { initialOrchState with
          lastObservationStationsKey :=
            normalizeCoordinate (mkRat 455231 10000) ++ "," ++
              normalizeCoordinate (mkRat (-1226765) 10000) } := by
  refine ⟨rfl, ?_⟩
  exact (stationary_key_guard 0 0 alwaysFailNet
    { initialOrchState with
        lastObservationStationsKey :=
          normalizeCoordinate (mkRat 455231 10000) ++ "," ++
            normalizeCoordinate (mkRat (-1226765) 10000) }
    (mkRat 455231 10000) (mkRat (-1226765) 10000) (fun _ => false)).1
    (Or.inl rfl)

end DataFromAnywhere
